import Mathlib

/-
Verification of the deterministic simulation core of the grid snake game:
a shallow embedding of src/rng.rs, src/types.rs, src/state.rs, src/rules.rs and
src/systems.rs, followed by theorems settling the specification claims.

Modelling conventions:
* Rust u64 / u32 / i32 values are Nat / Int with explicit reductions modulo 2^64
  (or a cast function) exactly where Rust wrapping semantics matter.
* The RngLike trait object is modelled by `Rng`: a deterministic implementor is
  characterized by its output stream, `idx` counting the calls already made.
* Cargo feature gates (wrap_walls / multiple_foods / powerups) are modelled by an
  explicit `Config` record; every `#[cfg(feature = ...)]` block of the source
  becomes a test of the corresponding flag, and fields of feature-gated struct
  members are always present but inert when their feature is off.
* The unbounded rejection-sampling loops of the source take an explicit fuel
  argument and return `none` when the fuel runs out; the power-up placement loop
  is bounded in the source itself (attempt counter) and is embedded with the
  remaining-candidate count running down from 101.
-/

set_option linter.unusedVariables false

namespace SnakeSpec

/-- Grid position with signed (i32) coordinates (src/types.rs, struct Position). -/
structure Position where
  x : Int
  y : Int
deriving DecidableEq, Repr

instance : Inhabited Position := ⟨⟨0, 0⟩⟩

/-- Grid dimensions (src/types.rs, struct GridSize). -/
structure GridSize where
  w : Int
  h : Int
deriving DecidableEq, Repr

/-- Movement direction (src/types.rs, enum Direction). -/
inductive Direction where
  | Up
  | Down
  | Left
  | Right
deriving DecidableEq, Repr

/-- Food kind in multi-food mode (src/types.rs, enum FoodType). -/
inductive FoodType where
  | Normal
  | Golden
  | Special
deriving DecidableEq, Repr

/-- Point value of a food kind (src/types.rs, FoodType::point_value). -/
def FoodType.point_value : FoodType → Nat
  | FoodType.Normal => 1
  | FoodType.Golden => 5
  | FoodType.Special => 10

/-- A typed food on the grid (src/types.rs, struct Food). -/
structure Food where
  position : Position
  food_type : FoodType
deriving DecidableEq, Repr

/-- Power-up kind (src/types.rs, enum PowerUpType). -/
inductive PowerUpType where
  | Slow
  | Fast
  | Poison
deriving DecidableEq, Repr

/-- A power-up on the grid (src/types.rs, struct PowerUp). -/
structure PowerUp where
  position : Position
  power_type : PowerUpType
  remaining_duration : Nat
deriving DecidableEq, Repr

/-- Initial duration per power-up kind (src/types.rs, PowerUp::initial_duration). -/
def PowerUp.initial_duration (pu : PowerUp) : Nat :=
  match pu.power_type with
  | PowerUpType.Slow => 20
  | PowerUpType.Fast => 15
  | PowerUpType.Poison => 0

/-- Snake body (src/state.rs, struct Snake). The VecDeque is a list whose head is
the deque front, i.e. the snake head; the deque back is the list's last element. -/
structure Snake where
  body : List Position
  dir : Direction
deriving DecidableEq, Repr

/-- Run state (src/state.rs, enum RunState). -/
inductive RunState where
  | Running
  | Paused
  | Over
deriving DecidableEq, Repr

/-- Cargo feature flags of the crate, made an explicit runtime configuration. -/
structure Config where
  wrap_walls : Bool
  multiple_foods : Bool
  powerups : Bool
deriving DecidableEq, Repr

/-- The game state aggregate (src/state.rs, struct GameState). Fields of members
that are feature-gated in the source are always present here and inert when the
corresponding `Config` flag is off: `food` is the single-food-mode food, `foods`
the multi-food-mode list, and the three power-up fields belong to the powerups
feature. -/
structure GameState where
  grid : GridSize
  snake : Snake
  food : Position
  foods : List Food
  score : Nat
  run_state : RunState
  wrap_walls : Bool
  powerup : Option PowerUp
  active_powerup : Option (PowerUpType × Nat)
  slow_skip_counter : Nat
deriving DecidableEq, Repr

/-- Deterministic RNG collaborator (src/rng.rs, trait RngLike): a deterministic
implementor of the trait is characterized by its output stream; `idx` counts the
calls made so far. Stream values are reduced mod 2^32 to model the u32 return. -/
structure Rng where
  stream : Nat → Nat
  idx : Nat

/-- One call through the RngLike trait: the next stream value and the advanced RNG. -/
def Rng.next_u32 (r : Rng) : Nat × Rng :=
  (r.stream r.idx % 2 ^ 32, ⟨r.stream, r.idx + 1⟩)

/-- An RNG advanced by m calls. -/
def rngSkip (m : Nat) (r : Rng) : Rng := ⟨r.stream, r.idx + m⟩

/-- Construction of the seeded RNG (src/rng.rs, Seeded::new): the seed is stored
verbatim as the 64-bit state; the reduction mod 2^64 models the u64 argument. -/
def Seeded.new (seed : Nat) : Nat := seed % 2 ^ 64

/-- One call of Seeded::next_u32 (src/rng.rs lines 17-25): the xorshift64* state
update (the Rust left shift keeps the low 64 bits), then the wrapping 64-bit
multiplication by 0x2545F4914F6CDD1D whose high 32 bits are the output. The
returned pair is (output, new state); the `as u32` cast of the source is the
identity because a u64 shifted right by 32 is already below 2^32. -/
def Seeded.next_u32 (s : Nat) : Nat × Nat :=
  let x1 := s ^^^ (s >>> 12)
  let x2 := x1 ^^^ ((x1 <<< 25) % 2 ^ 64)
  let x3 := x2 ^^^ (x2 >>> 27)
  ((x3 * 0x2545F4914F6CDD1D % 2 ^ 64) >>> 32, x3)

/-- Reference xorshift64* state transform written from the words of the spec
(claim C1): x = s XOR (s >> 12); x = x XOR (x << 25), keeping 64 bits; then
x = x XOR (x >> 27); this x is the stored new state. -/
def specXorshiftState (s : Nat) : Nat :=
  let a := s ^^^ (s >>> 12)
  let b := a ^^^ ((a <<< 25) % 2 ^ 64)
  b ^^^ (b >>> 27)

/-- Reference output written from the words of the spec (claim C1): the high 32
bits of the new state times 0x2545F4914F6CDD1D under wrapping 64-bit
multiplication, i.e. the wrapped product divided by 2^32. -/
def specXorshiftOut (s : Nat) : Nat :=
  specXorshiftState s * 0x2545F4914F6CDD1D % 2 ^ 64 / 2 ^ 32

/-- State of a Seeded RNG after n calls starting from state s. -/
def seededStateIter (s : Nat) : Nat → Nat
  | 0 => s
  | n + 1 => (Seeded.next_u32 (seededStateIter s n)).2

/-- List of the first n outputs of a Seeded RNG started at state s. -/
def seededRunOutputs (s : Nat) : Nat → List Nat
  | 0 => []
  | n + 1 => (Seeded.next_u32 s).1 :: seededRunOutputs (Seeded.next_u32 s).2 n

/-- Output sequence of an RNG constructed with Seeded::new on the given seed. -/
def seededOutputs (seed n : Nat) : List Nat :=
  seededRunOutputs (Seeded.new seed) n

/-- Rust cast `u32 as i32` (used by every sampling loop): values below 2^31 are
unchanged, larger ones wrap to negative. -/
def toI32 (v : Nat) : Int :=
  if v < 2 ^ 31 then (v : Int) else (v : Int) - 2 ^ 32

/-- Draw a candidate cell: two RNG calls, each cast to i32 and reduced with
rem_euclid by the grid dimensions — the two-line pattern shared by every
sampling loop in src/rules.rs and src/state.rs. -/
def drawCell (grid : GridSize) (rng : Rng) : Position × Rng :=
  let vx := rng.next_u32
  let vy := vx.2.next_u32
  (⟨(toI32 vx.1).emod grid.w, (toI32 vy.1).emod grid.h⟩, vy.2)

/-- Next head position (src/rules.rs, next_head): old head plus the unit vector
of the direction, with y growing downward. -/
def next_head (head : Position) (dir : Direction) : Position :=
  match dir with
  | Direction.Up => ⟨head.x, head.y - 1⟩
  | Direction.Down => ⟨head.x, head.y + 1⟩
  | Direction.Left => ⟨head.x - 1, head.y⟩
  | Direction.Right => ⟨head.x + 1, head.y⟩

/-- Bounds check (src/rules.rs, out_of_bounds). -/
def out_of_bounds (p : Position) (g : GridSize) : Bool :=
  p.x < 0 || p.y < 0 || p.x ≥ g.w || p.y ≥ g.h

/-- Toroidal wrap (src/rules.rs, wrap_position): Euclidean remainder on both
coordinates. Lean's Int.emod is exactly Rust's rem_euclid. -/
def wrap_position (p : Position) (g : GridSize) : Position :=
  ⟨p.x.emod g.w, p.y.emod g.h⟩

/-- Rejection sampling of a food cell (src/rules.rs spawn_food and its verbatim
duplicate in src/state.rs): draw cells until one misses the snake body. The
source loop is unbounded; fuel bounds the recursion here, none = fuel ran out. -/
def spawn_food (grid : GridSize) (snake : Snake) : Nat → Rng → Option (Position × Rng)
  | 0, _ => none
  | fuel + 1, rng =>
    let pr := drawCell grid rng
    if pr.1 ∈ snake.body then spawn_food grid snake fuel pr.2
    else some pr

/-- Food-type roll (src/rules.rs determine_food_type and its duplicate in
src/state.rs): one RNG call mod 100; below 70 Normal, below 95 Golden, else
Special. -/
def determine_food_type (rng : Rng) : FoodType × Rng :=
  let v := rng.next_u32
  (if v.1 % 100 < 70 then FoodType.Normal
   else if v.1 % 100 < 95 then FoodType.Golden
   else FoodType.Special, v.2)

/-- Placement loop of spawn_food_with_type (src/rules.rs lines 187-201): draw
cells until one misses both the snake body and every existing food. Unbounded in
the source, fuel-bounded here. -/
def spawn_food_pos (grid : GridSize) (snake : Snake) (existing_foods : List Food) :
    Nat → Rng → Option (Position × Rng)
  | 0, _ => none
  | fuel + 1, rng =>
    let pr := drawCell grid rng
    if pr.1 ∈ snake.body ∨ ∃ f ∈ existing_foods, f.position = pr.1 then
      spawn_food_pos grid snake existing_foods fuel pr.2
    else some pr

/-- Typed food spawn (src/rules.rs spawn_food_with_type and its duplicate in
src/state.rs): roll the type first, then run the placement loop. -/
def spawn_food_with_type (grid : GridSize) (snake : Snake) (existing_foods : List Food)
    (fuel : Nat) (rng : Rng) : Option (Food × Rng) :=
  let ft := determine_food_type rng
  match spawn_food_pos grid snake existing_foods fuel ft.2 with
  | none => none
  | some (p, rng2) => some (⟨p, ft.1⟩, rng2)

/-- Initial multi-food population loop body (src/state.rs spawn_initial_foods,
the for-loop): spawn n typed foods, each checked against the foods accumulated
so far. -/
def spawn_initial_foods_go (grid : GridSize) (snake : Snake) (fuel : Nat) :
    Nat → List Food → Rng → Option (List Food × Rng)
  | 0, acc, rng => some (acc, rng)
  | n + 1, acc, rng =>
    match spawn_food_with_type grid snake acc fuel rng with
    | none => none
    | some (f, rng2) => spawn_initial_foods_go grid snake fuel n (acc ++ [f]) rng2

/-- Initial multi-food population (src/state.rs spawn_initial_foods): the count
is 3 plus an RNG roll mod 3, then that many typed foods are spawned. -/
def spawn_initial_foods (grid : GridSize) (snake : Snake) (fuel : Nat) (rng : Rng) :
    Option (List Food × Rng) :=
  let v := rng.next_u32
  spawn_initial_foods_go grid snake fuel (3 + v.1 % 3) [] v.2

/-- Power-up type roll (src/rules.rs determine_powerup_type): one RNG call mod
100; below 40 Slow, below 80 Fast, else Poison. -/
def determine_powerup_type (rng : Rng) : PowerUpType × Rng :=
  let v := rng.next_u32
  (if v.1 % 100 < 40 then PowerUpType.Slow
   else if v.1 % 100 < 80 then PowerUpType.Fast
   else PowerUpType.Poison, v.2)

/-- Placement loop of spawn_powerup (src/rules.rs lines 243-289). The source
counts attempts upward and returns None as soon as attempts exceeds 100, having
incremented before drawing — so exactly 101 candidate cells are drawn before it
gives up. The embedding counts the remaining candidates downward, started at
101 by spawn_powerup. The checks run in source order: snake body, then food
(single- or multi-food form by feature), then the existing power-up. -/
def spawn_powerup_loop (cfg : Config) (grid : GridSize) (snake : Snake)
    (existing_powerup : Option PowerUp) (food : Position) (existing_foods : List Food)
    (power_type : PowerUpType) : Nat → Rng → Option PowerUp × Rng
  | 0, rng => (none, rng)
  | remaining + 1, rng =>
    let pr := drawCell grid rng
    if pr.1 ∈ snake.body then
      spawn_powerup_loop cfg grid snake existing_powerup food existing_foods power_type remaining pr.2
    else if cfg.multiple_foods = true ∧ ∃ f ∈ existing_foods, f.position = pr.1 then
      spawn_powerup_loop cfg grid snake existing_powerup food existing_foods power_type remaining pr.2
    else if cfg.multiple_foods = false ∧ pr.1 = food then
      spawn_powerup_loop cfg grid snake existing_powerup food existing_foods power_type remaining pr.2
    else if ∃ epu, existing_powerup = some epu ∧ epu.position = pr.1 then
      spawn_powerup_loop cfg grid snake existing_powerup food existing_foods power_type remaining pr.2
    else
      (some ⟨pr.1, power_type,
        match power_type with
        | PowerUpType.Slow => 20
        | PowerUpType.Fast => 15
        | PowerUpType.Poison => 0⟩, pr.2)

/-- spawn_powerup (src/rules.rs lines 221-290): None when a power-up already
exists; one percent roll, aborting unless it is below 10; then the type roll and
the capped placement loop (101 candidates, matching the attempts-greater-than-
100 give-up of the source). -/
def spawn_powerup (cfg : Config) (grid : GridSize) (snake : Snake)
    (existing_powerup : Option PowerUp) (food : Position) (existing_foods : List Food)
    (rng : Rng) : Option PowerUp × Rng :=
  if existing_powerup.isSome then (none, rng)
  else
    let v := rng.next_u32
    if v.1 % 100 ≥ 10 then (none, v.2)
    else
      let pt := determine_powerup_type v.2
      spawn_powerup_loop cfg grid snake existing_powerup food existing_foods pt.1 101 pt.2

/-- try_spawn_powerup (src/rules.rs lines 310-328): early return when a power-up
is on the grid, otherwise install the result of spawn_powerup if any. -/
def try_spawn_powerup (cfg : Config) (g : GameState) (rng : Rng) : GameState × Rng :=
  if g.powerup.isSome then (g, rng)
  else
    match spawn_powerup cfg g.grid g.snake g.powerup g.food g.foods rng with
    | (some pu, rng2) => ({ g with powerup := some pu }, rng2)
    | (none, rng2) => (g, rng2)

/-- Slow gate of step (src/rules.rs lines 20-28): true when the powerups feature
is on and a Slow power-up is currently active. -/
def slowActive (cfg : Config) (g : GameState) : Bool :=
  cfg.powerups && match g.active_powerup with
    | some (PowerUpType.Slow, _) => true
    | _ => false

/-- Tentative next head of a step (src/rules.rs line 30): next_head applied to
the deque front and the current direction. -/
def stepNext (g : GameState) : Position :=
  next_head g.snake.body.headI g.snake.dir

/-- Wrap topology is enabled and active: the feature is compiled in and the
state flag is set. -/
def wrapActive (cfg : Config) (g : GameState) : Bool :=
  cfg.wrap_walls && g.wrap_walls

/-- The wrap-adjusted next head, wrapped_next of the source (src/rules.rs lines
33-41): wrapped when the wrap feature is on, the state flag set and the
tentative head out of bounds; the tentative head otherwise. -/
def stepWrapped (cfg : Config) (g : GameState) : Position :=
  if wrapActive cfg g && out_of_bounds (stepNext g) g.grid then
    wrap_position (stepNext g) g.grid
  else stepNext g

/-- should_end_game of the source (src/rules.rs lines 44-48): with the wrap
feature compiled in, the wall kills only when the state flag is off; without the
feature, any out-of-bounds head kills. -/
def shouldEnd (cfg : Config) (g : GameState) : Bool :=
  if cfg.wrap_walls then !g.wrap_walls && out_of_bounds (stepNext g) g.grid
  else out_of_bounds (stepNext g) g.grid

/-- First removal by predicate position (src/rules.rs lines 79-80): renders
`foods.iter().position(|f| f.position == wrapped_next)` followed by
`foods.remove(index)` as one pass, returning the removed food and the remaining
list in order. -/
def extractFood (wnext : Position) : List Food → Option (Food × List Food)
  | [] => none
  | f :: fs =>
    if f.position = wnext then some (f, fs)
    else
      match extractFood wnext fs with
      | some (e, rest) => some (e, f :: rest)
      | none => none

/-- Feeding block of step (src/rules.rs lines 63-95), acting on the state whose
body already carries the new head. Single-food mode: eating bumps the score and
resamples the food against the grown snake, otherwise the tail is popped.
Multi-food mode: the first food at the head is removed, its point value added,
and a replacement is sampled while fewer than 5 foods remain; the tail is popped
only when nothing was eaten. -/
def stepFeed (cfg : Config) (wnext : Position) (g : GameState) (rng : Rng)
    (fuel : Nat) : Option (GameState × Rng) :=
  if cfg.multiple_foods then
    match extractFood wnext g.foods with
    | some (eaten, rest) =>
      if rest.length < 5 then
        match spawn_food_with_type g.grid g.snake rest fuel rng with
        | none => none
        | some (f, rng2) =>
          some ({ g with
                  foods := rest ++ [f]
                  score := g.score + eaten.food_type.point_value }, rng2)
      else
        some ({ g with
                foods := rest
                score := g.score + eaten.food_type.point_value }, rng)
    | none =>
      some ({ g with snake := { g.snake with body := g.snake.body.dropLast } }, rng)
  else
    if wnext = g.food then
      match spawn_food g.grid g.snake fuel rng with
      | none => none
      | some (p, rng2) => some ({ g with score := g.score + 1, food := p }, rng2)
    else
      some ({ g with snake := { g.snake with body := g.snake.body.dropLast } }, rng)

/-- Power-up collision block of step (src/rules.rs lines 97-128): when a grid
power-up sits at the new head, Poison pops one extra tail segment (never below
length 1) and records no duration, Slow and Fast become the active power-up with
their initial duration (Slow also resets the skip counter); the grid power-up is
removed in all cases. -/
def stepPowerupCollision (cfg : Config) (wnext : Position) (g : GameState) : GameState :=
  if cfg.powerups then
    match g.powerup with
    | some powerup =>
      if wnext = powerup.position then
        match powerup.power_type with
        | PowerUpType.Poison =>
          if g.snake.body.length > 1 then
            { g with
              snake := { g.snake with body := g.snake.body.dropLast }
              powerup := none }
          else { g with powerup := none }
        | pt =>
          { g with
            active_powerup := some (pt, powerup.initial_duration)
            slow_skip_counter :=
              if pt = PowerUpType.Slow then 0 else g.slow_skip_counter
            powerup := none }
      else g
    | none => g
  else g

/-- Movement part of step (src/rules.rs lines 30-130), entered when neither the
pause/over guard nor the slow skip returned: wall check, self-collision check,
head push, feeding, power-up collision. -/
def stepMove (cfg : Config) (g : GameState) (rng : Rng) (fuel : Nat) :
    Option (GameState × Rng) :=
  if shouldEnd cfg g then some ({ g with run_state := RunState.Over }, rng)
  else if stepWrapped cfg g ∈ g.snake.body then
    some ({ g with run_state := RunState.Over }, rng)
  else
    match stepFeed cfg (stepWrapped cfg g)
        { g with snake := { g.snake with body := stepWrapped cfg g :: g.snake.body } }
        rng fuel with
    | none => none
    | some (g3, rng3) => some (stepPowerupCollision cfg (stepWrapped cfg g) g3, rng3)

/-- One Rule Engine step (src/rules.rs step, lines 11-130): no-op when paused or
over; with an active Slow power-up the skip counter is incremented and odd
values skip the step entirely; otherwise the movement part runs. -/
def step (cfg : Config) (g : GameState) (rng : Rng) (fuel : Nat) :
    Option (GameState × Rng) :=
  if g.run_state = RunState.Paused ∨ g.run_state = RunState.Over then some (g, rng)
  else if slowActive cfg g then
    if (g.slow_skip_counter + 1) % 2 = 1 then
      some ({ g with slow_skip_counter := g.slow_skip_counter + 1 }, rng)
    else stepMove cfg { g with slow_skip_counter := g.slow_skip_counter + 1 } rng fuel
  else stepMove cfg g rng fuel

/-- Iterated Rule Engine steps (claim C5): n consecutive calls to step. -/
def stepIter (cfg : Config) (fuel : Nat) : Nat → GameState → Rng → Option (GameState × Rng)
  | 0, g, rng => some (g, rng)
  | n + 1, g, rng =>
    match step cfg g rng fuel with
    | none => none
    | some (g2, rng2) => stepIter cfg fuel n g2 rng2

/-- Duration bookkeeping of the game loop (src/systems.rs
update_powerup_effects): the active power-up duration is decremented once,
floored at 0, and on reaching 0 the active power-up is cleared and the skip
counter reset. -/
def update_powerup_effects (g : GameState) : GameState :=
  match g.active_powerup with
  | some (pt, d) =>
    let d2 := if d > 0 then d - 1 else d
    if d2 = 0 then { g with active_powerup := none, slow_skip_counter := 0 }
    else { g with active_powerup := some (pt, d2) }
  | none => g

/-- Fast gate of the game loop (src/systems.rs lines 45-51): a Fast power-up is
currently active. -/
def fastActive (g : GameState) : Bool :=
  match g.active_powerup with
  | some (PowerUpType.Fast, _) => true
  | _ => false

/-- One game-loop update (src/systems.rs Loop::update, lines 27-60). The Input
collaborator is modelled by the direction it currently reports, the Time
collaborator by a counter incremented once per tick() call. Order as in the
source: latch the direction, power-up duration bookkeeping, one spawn attempt,
then the Rule Engine step twice under an active Fast power-up and once
otherwise, and finally one tick. -/
def update (cfg : Config) (dir : Direction) (g : GameState) (rng : Rng)
    (time : Nat) (fuel : Nat) : Option (GameState × Rng × Nat) :=
  let ga := { g with snake := { g.snake with dir := dir } }
  let gb := if cfg.powerups then update_powerup_effects ga else ga
  let gc := if cfg.powerups then try_spawn_powerup cfg gb rng else (gb, rng)
  let stepped :=
    if cfg.powerups && fastActive gc.1 then
      match step cfg gc.1 gc.2 fuel with
      | none => none
      | some (gd, rng2) => step cfg gd rng2 fuel
    else step cfg gc.1 gc.2 fuel
  match stepped with
  | none => none
  | some (ge, rng3) => some (ge, rng3, time + 1)

/-- GameState::reset (src/state.rs lines 272-344, one source variant per feature
combination): a length-1 snake at the grid centre facing Right, food or foods
resampled, score 0, Running, power-up fields cleared when the powerups feature
is on, and the wrap flag left untouched. -/
def GameState.reset (cfg : Config) (g : GameState) (rng : Rng) (fuel : Nat) :
    Option (GameState × Rng) :=
  let start : Position := ⟨g.grid.w / 2, g.grid.h / 2⟩
  let snake : Snake := ⟨[start], Direction.Right⟩
  if cfg.multiple_foods then
    match spawn_initial_foods g.grid snake fuel rng with
    | none => none
    | some (foods, rng2) =>
      some ({ g with
              snake := snake
              foods := foods
              score := 0
              run_state := RunState.Running
              powerup := if cfg.powerups then none else g.powerup
              active_powerup := if cfg.powerups then none else g.active_powerup
              slow_skip_counter := if cfg.powerups then 0 else g.slow_skip_counter }, rng2)
  else
    match spawn_food g.grid snake fuel rng with
    | none => none
    | some (p, rng2) =>
      some ({ g with
              snake := snake
              food := p
              score := 0
              run_state := RunState.Running
              powerup := if cfg.powerups then none else g.powerup
              active_powerup := if cfg.powerups then none else g.active_powerup
              slow_skip_counter := if cfg.powerups then 0 else g.slow_skip_counter }, rng2)

/-- GameState::new_with_wrap (src/state.rs, one source variant per feature
combination): fresh state with a length-1 snake at the grid centre facing Right,
freshly sampled food or foods, score 0, Running; fields whose feature is off are
set to their inert defaults, and the wrap flag is taken from the argument only
when the wrap feature is compiled in (the non-wrap variants ignore it). -/
def GameState.new_with_wrap (cfg : Config) (grid : GridSize) (rng : Rng)
    (wrap : Bool) (fuel : Nat) : Option (GameState × Rng) :=
  let start : Position := ⟨grid.w / 2, grid.h / 2⟩
  let snake : Snake := ⟨[start], Direction.Right⟩
  if cfg.multiple_foods then
    match spawn_initial_foods grid snake fuel rng with
    | none => none
    | some (foods, rng2) =>
      some ({ grid := grid
              snake := snake
              food := ⟨0, 0⟩
              foods := foods
              score := 0
              run_state := RunState.Running
              wrap_walls := if cfg.wrap_walls then wrap else false
              powerup := none
              active_powerup := none
              slow_skip_counter := 0 }, rng2)
  else
    match spawn_food grid snake fuel rng with
    | none => none
    | some (p, rng2) =>
      some ({ grid := grid
              snake := snake
              food := p
              foods := []
              score := 0
              run_state := RunState.Running
              wrap_walls := if cfg.wrap_walls then wrap else false
              powerup := none
              active_powerup := none
              slow_skip_counter := 0 }, rng2)

/-- GameState::new (src/state.rs lines 42-50): new_with_wrap with the flag off. -/
def GameState.new (cfg : Config) (grid : GridSize) (rng : Rng) (fuel : Nat) :
    Option (GameState × Rng) :=
  GameState.new_with_wrap cfg grid rng false fuel

/-- Food invariant of the spec (claim C6): no food on a snake cell and, in
multi-food mode, pairwise distinct food positions. -/
@[reducible] def foodInv (cfg : Config) (g : GameState) : Prop :=
  match cfg.multiple_foods with
  | true =>
    (∀ f ∈ g.foods, f.position ∉ g.snake.body) ∧ (g.foods.map Food.position).Nodup
  | false => g.food ∉ g.snake.body

/-- Whether the head lands on food (claim C2): multi-food mode checks the food
list, single-food mode the single food. -/
def ateAt (cfg : Config) (w : Position) (g : GameState) : Bool :=
  if cfg.multiple_foods then g.foods.any (fun f => f.position = w)
  else w = g.food

/-- Whether the head lands on a Poison power-up (claim C2). -/
def poisonAt (cfg : Config) (w : Position) (g : GameState) : Bool :=
  cfg.powerups && g.powerup.any (fun pu => pu.position = w && pu.power_type = PowerUpType.Poison)

/-- All-features-off configuration (no wrap, single food, no power-ups). -/
def cfgPlain : Config := ⟨false, false, false⟩

/-- Power-ups-only configuration. -/
def cfgPow : Config := ⟨false, false, true⟩

/-- Wrap-walls-only configuration. -/
def cfgWrap : Config := ⟨true, false, false⟩

/-- Multi-food-only configuration. -/
def cfgMulti : Config := ⟨false, true, false⟩

/-- An RNG whose stream is constantly zero. -/
def rngZero : Rng := ⟨fun _ => 0, 0⟩

/-- An RNG whose stream enumerates the naturals. -/
def rngId : Rng := ⟨fun i => i, 0⟩

/-- An RNG whose stream is constantly ten (its percent roll aborts a power-up
spawn attempt). -/
def rngTen : Rng := ⟨fun _ => 10, 0⟩

/-- Concrete scenario state of claims C2 and C6: 10 by 10 grid, single-segment
snake at the centre facing Right, food in the corner. -/
def gCenter : GameState :=
  ⟨⟨10, 10⟩, ⟨[⟨5, 5⟩], Direction.Right⟩, ⟨0, 0⟩, [], 0, RunState.Running, false,
    none, none, 0⟩

/-- Counterexample state of claim C2: like gCenter but with an active Slow
power-up and an even skip counter, so the next step is a slow skip. -/
def gSlowSkip : GameState :=
  ⟨⟨10, 10⟩, ⟨[⟨5, 5⟩], Direction.Right⟩, ⟨0, 0⟩, [], 0, RunState.Running, false,
    none, some (PowerUpType.Slow, 5), 0⟩

/-- Wrap-scenario state of claim C4: 3 by 3 grid, head at the right edge facing
Right, wrap flag on. -/
def gEdgeWrap : GameState :=
  ⟨⟨3, 3⟩, ⟨[⟨2, 1⟩], Direction.Right⟩, ⟨0, 0⟩, [], 0, RunState.Running, true,
    none, none, 0⟩

/-- Same scenario as gEdgeWrap with the wrap flag off. -/
def gEdgeNoWrap : GameState :=
  ⟨⟨3, 3⟩, ⟨[⟨2, 1⟩], Direction.Right⟩, ⟨0, 0⟩, [], 0, RunState.Running, false,
    none, none, 0⟩

/-- Paused state for the claim C5 witness. -/
def gPaused : GameState :=
  ⟨⟨10, 10⟩, ⟨[⟨5, 5⟩], Direction.Right⟩, ⟨0, 0⟩, [], 3, RunState.Paused, false,
    none, none, 0⟩

/-- State with an expiring Slow power-up for the claim C7 witness. -/
def gSlowExpiring : GameState :=
  ⟨⟨10, 10⟩, ⟨[⟨5, 5⟩], Direction.Right⟩, ⟨0, 0⟩, [], 0, RunState.Running, false,
    none, some (PowerUpType.Slow, 1), 1⟩

/-- Stream of the claim C9 counterexample: percent roll 5, type roll 50 (Fast),
then 100 candidate cells on the snake, and a free cell as the 101st candidate. -/
def c9stream : Nat → Nat := fun i =>
  if i = 0 then 5 else if i = 1 then 50
  else if i = 202 then 0 else if i = 203 then 1 else 0

/-- RNG of the claim C9 counterexample. -/
def c9rng : Rng := ⟨c9stream, 0⟩

/-- Grid of the claim C9 counterexample. -/
def c9grid : GridSize := ⟨2, 2⟩

/-- Snake of the claim C9 counterexample, occupying the cell every one of the
first 100 candidates lands on. -/
def c9snake : Snake := ⟨[⟨0, 0⟩], Direction.Right⟩

/-- Candidate cell drawn by the k-th iteration (0-based) of the power-up
placement loop started on the given RNG. -/
def candAt (grid : GridSize) (rng : Rng) (k : Nat) : Position :=
  (drawCell grid (rngSkip (2 * k) rng)).1

/-- A cell the power-up placement loop rejects: on the snake, on food (in the
form matching the food mode), or on the existing power-up. -/
def cellBlocked (cfg : Config) (snake : Snake) (existing_powerup : Option PowerUp)
    (food : Position) (existing_foods : List Food) (p : Position) : Prop :=
  p ∈ snake.body
    ∨ (cfg.multiple_foods = true ∧ ∃ f ∈ existing_foods, f.position = p)
    ∨ (cfg.multiple_foods = false ∧ p = food)
    ∨ (∃ epu, existing_powerup = some epu ∧ epu.position = p)

/-- Result of one step on gCenter: head advanced to (6,5). -/
def gCenterAfter : GameState :=
  ⟨⟨10, 10⟩, ⟨[⟨6, 5⟩], Direction.Right⟩, ⟨0, 0⟩, [], 0, RunState.Running, false,
    none, none, 0⟩

/-- Result of one step on gEdgeWrap: head wrapped to (0,1). -/
def gEdgeWrapAfter : GameState :=
  ⟨⟨3, 3⟩, ⟨[⟨0, 1⟩], Direction.Right⟩, ⟨0, 0⟩, [], 0, RunState.Running, true,
    none, none, 0⟩

/-- Result of resetting gCenter in multi-food mode with the identity-stream RNG:
count roll 0 gives 3 foods, placed at (2,3), (5,6) and (8,9). -/
def c8after : GameState :=
  { gCenter with
    foods := [⟨⟨2, 3⟩, FoodType.Normal⟩, ⟨⟨5, 6⟩, FoodType.Normal⟩,
      ⟨⟨8, 9⟩, FoodType.Normal⟩] }

theorem seededStateIter_shift (s k : Nat) :
    seededStateIter (Seeded.next_u32 s).2 k = seededStateIter s (k + 1) := by
  induction k with
  | zero => rfl
  | succ k ih => simp [seededStateIter, ih]

theorem seededRunOutputs_closed_form (n : Nat) : ∀ s,
    seededRunOutputs s n =
      (List.range n).map (fun k => (Seeded.next_u32 (seededStateIter s k)).1) := by
  induction n with
  | zero => intro s; rfl
  | succ n ih =>
    intro s
    rw [List.range_succ_eq_map]
    simp only [seededRunOutputs, List.map_cons, List.map_map]
    congr 1
    rw [ih]
    apply List.map_congr_left
    intro k _
    simp [Function.comp, seededStateIter_shift]

/-- C1. The RNG's next_u32 follows the xorshift64* reference definition: the new
state is the three-stage XOR-shift transform of the old state (shifts 12, 25,
27, the left shift keeping 64 bits), the output is the high 32 bits of the new
state times 0x2545F4914F6CDD1D under wrapping 64-bit multiplication; and for
every seed the output sequence is the pure function of the seed given by
iterating this transform from Seeded::new seed — so two RNGs constructed with
the same seed produce identical output sequences for any number of draws. -/
theorem xorshift_follows_reference :
    (∀ s : Nat, Seeded.next_u32 s = (specXorshiftOut s, specXorshiftState s))
    ∧ (∀ seed n : Nat,
        seededOutputs seed n =
          (List.range n).map
            (fun k => (Seeded.next_u32 (seededStateIter (Seeded.new seed) k)).1)) := by
  constructor
  · intro s
    simp [Seeded.next_u32, specXorshiftOut, specXorshiftState, Nat.shiftRight_eq_div_pow]
  · intro seed n
    exact seededRunOutputs_closed_form n (Seeded.new seed)

theorem step_paused_or_over (cfg : Config) (g : GameState) (rng : Rng) (fuel : Nat)
    (h : g.run_state = RunState.Paused ∨ g.run_state = RunState.Over) :
    step cfg g rng fuel = some (g, rng) := by
  unfold step
  rw [if_pos h]

theorem step_running_noslow (cfg : Config) (g : GameState) (rng : Rng) (fuel : Nat)
    (hr : g.run_state = RunState.Running) (hs : slowActive cfg g = false) :
    step cfg g rng fuel = stepMove cfg g rng fuel := by
  unfold step
  rw [if_neg (by simp [hr]), if_neg (by simp [hs])]

theorem step_running_slow (cfg : Config) (g : GameState) (rng : Rng) (fuel : Nat)
    (hr : g.run_state = RunState.Running) (hs : slowActive cfg g = true)
    (he : (g.slow_skip_counter + 1) % 2 = 0) :
    step cfg g rng fuel =
      stepMove cfg { g with slow_skip_counter := g.slow_skip_counter + 1 } rng fuel := by
  unfold step
  rw [if_neg (by simp [hr]), if_pos hs, if_neg (by simp [he])]

theorem stepMove_inv (cfg : Config) (g : GameState) (rng : Rng) (fuel : Nat)
    (g' : GameState) (rng' : Rng)
    (h : stepMove cfg g rng fuel = some (g', rng')) :
    ((shouldEnd cfg g = true ∨ stepWrapped cfg g ∈ g.snake.body)
      ∧ g' = { g with run_state := RunState.Over } ∧ rng' = rng)
    ∨ (shouldEnd cfg g = false ∧ stepWrapped cfg g ∉ g.snake.body
      ∧ ∃ g3 rng3,
          stepFeed cfg (stepWrapped cfg g)
            { g with snake := { g.snake with body := stepWrapped cfg g :: g.snake.body } }
            rng fuel = some (g3, rng3)
          ∧ g' = stepPowerupCollision cfg (stepWrapped cfg g) g3 ∧ rng' = rng3) := by
  unfold stepMove at h
  split at h
  next hw =>
    left
    simp only [Option.some.injEq, Prod.mk.injEq] at h
    exact ⟨Or.inl hw, h.1.symm, h.2.symm⟩
  next hw =>
    split at h
    next hc =>
      left
      simp only [Option.some.injEq, Prod.mk.injEq] at h
      exact ⟨Or.inr hc, h.1.symm, h.2.symm⟩
    next hc =>
      right
      refine ⟨by simpa using hw, hc, ?_⟩
      split at h
      next => exact Option.noConfusion h
      next g3 rng3 heq =>
        simp only [Option.some.injEq, Prod.mk.injEq] at h
        exact ⟨g3, rng3, heq, h.1.symm, h.2.symm⟩

theorem extractFood_none (w : Position) (l : List Food) (h : extractFood w l = none) :
    ∀ f ∈ l, f.position ≠ w := by
  induction l with
  | nil => intro f hf; cases hf
  | cons a fs ih =>
    unfold extractFood at h
    split at h
    next => cases h
    next ha =>
      intro f hf
      cases hx : extractFood w fs with
      | none =>
        rcases List.mem_cons.mp hf with rfl | hfs
        · exact ha
        · exact ih hx f hfs
      | some pr => rw [hx] at h; cases h

theorem extractFood_mem (w : Position) (l : List Food) :
    ∀ e rest, extractFood w l = some (e, rest) → e ∈ l ∧ e.position = w := by
  induction l with
  | nil => intro e rest h; cases h
  | cons a fs ih =>
    intro e rest h
    unfold extractFood at h
    split at h
    next ha =>
      simp only [Option.some.injEq, Prod.mk.injEq] at h
      rw [← h.1]
      exact ⟨List.mem_cons_self a fs, ha⟩
    next ha =>
      cases hx : extractFood w fs with
      | none => rw [hx] at h; cases h
      | some pr =>
        obtain ⟨e2, rest2⟩ := pr
        rw [hx] at h
        simp only [Option.some.injEq, Prod.mk.injEq] at h
        obtain ⟨he, -⟩ := h
        have := ih e2 rest2 hx
        rw [← he]
        exact ⟨List.mem_cons_of_mem a this.1, this.2⟩

theorem extractFood_sublist (w : Position) (l : List Food) :
    ∀ e rest, extractFood w l = some (e, rest) → List.Sublist rest l := by
  induction l with
  | nil => intro e rest h; cases h
  | cons a fs ih =>
    intro e rest h
    unfold extractFood at h
    split at h
    next =>
      simp only [Option.some.injEq, Prod.mk.injEq] at h
      rw [← h.2]
      exact List.sublist_cons_self a fs
    next =>
      cases hx : extractFood w fs with
      | none => rw [hx] at h; cases h
      | some pr =>
        obtain ⟨e2, rest2⟩ := pr
        rw [hx] at h
        simp only [Option.some.injEq, Prod.mk.injEq] at h
        rw [← h.2]
        exact List.Sublist.cons₂ a (ih e2 rest2 hx)

theorem extractFood_rest_ne (w : Position) (l : List Food) :
    ∀ e rest, (l.map Food.position).Nodup → extractFood w l = some (e, rest) →
      ∀ f ∈ rest, f.position ≠ w := by
  induction l with
  | nil => intro e rest _ h; cases h
  | cons a fs ih =>
    intro e rest hnd h
    unfold extractFood at h
    split at h
    next ha =>
      simp only [Option.some.injEq, Prod.mk.injEq] at h
      rw [← h.2]
      intro f hf hfw
      have hna : a.position ∉ fs.map Food.position := (List.nodup_cons.mp hnd).1
      exact hna (by
        rw [ha, ← hfw]
        exact List.mem_map_of_mem Food.position hf)
    next ha =>
      cases hx : extractFood w fs with
      | none => rw [hx] at h; cases h
      | some pr =>
        obtain ⟨e2, rest2⟩ := pr
        rw [hx] at h
        simp only [Option.some.injEq, Prod.mk.injEq] at h
        rw [← h.2]
        intro f hf
        rcases List.mem_cons.mp hf with rfl | hf2
        · exact ha
        · exact ih e2 rest2 (List.nodup_cons.mp hnd).2 hx f hf2

theorem stepFeed_facts (cfg : Config) (w : Position) (g : GameState) (rng : Rng)
    (fuel : Nat) (g3 : GameState) (rng3 : Rng)
    (h : stepFeed cfg w g rng fuel = some (g3, rng3)) :
    g3.run_state = g.run_state ∧ g3.grid = g.grid ∧ g3.powerup = g.powerup
    ∧ g3.active_powerup = g.active_powerup
    ∧ g3.slow_skip_counter = g.slow_skip_counter
    ∧ g3.snake.dir = g.snake.dir
    ∧ g3.snake.body =
        (if ateAt cfg w g = true then g.snake.body else g.snake.body.dropLast) := by
  unfold stepFeed at h
  split at h
  next hm =>
    cases hx : extractFood w g.foods with
    | none =>
      rw [hx] at h
      dsimp only at h
      simp only [Option.some.injEq, Prod.mk.injEq] at h
      have hate : ateAt cfg w g = false := by
        simp only [ateAt, hm, if_true, List.any_eq_false, decide_eq_true_eq]
        exact extractFood_none w g.foods hx
      rw [← h.1]
      simp [hate]
    | some pr =>
      obtain ⟨e, rest⟩ := pr
      rw [hx] at h
      dsimp only at h
      have hmem := extractFood_mem w g.foods e rest hx
      have hate : ateAt cfg w g = true := by
        simp only [ateAt, hm, if_true, List.any_eq_true, decide_eq_true_eq]
        exact ⟨e, hmem.1, hmem.2⟩
      split at h
      next hlen =>
        split at h
        next => exact Option.noConfusion h
        next f rng2 heq =>
          simp only [Option.some.injEq, Prod.mk.injEq] at h
          rw [← h.1]
          simp [hate]
      next hlen =>
        simp only [Option.some.injEq, Prod.mk.injEq] at h
        rw [← h.1]
        simp [hate]
  next hm =>
    have hm' : cfg.multiple_foods = false := by
      cases hmf : cfg.multiple_foods
      · rfl
      · exact absurd hmf hm
    split at h
    next hfood =>
      split at h
      next => exact Option.noConfusion h
      next p rng2 heq =>
        simp only [Option.some.injEq, Prod.mk.injEq] at h
        have hate : ateAt cfg w g = true := by simp [ateAt, hm', hfood]
        rw [← h.1]
        simp [hate]
    next hfood =>
      simp only [Option.some.injEq, Prod.mk.injEq] at h
      have hate : ateAt cfg w g = false := by simp [ateAt, hm', hfood]
      rw [← h.1]
      simp [hate]

theorem stepPU_facts (cfg : Config) (w : Position) (g : GameState) :
    (stepPowerupCollision cfg w g).run_state = g.run_state
    ∧ (stepPowerupCollision cfg w g).grid = g.grid
    ∧ (stepPowerupCollision cfg w g).score = g.score
    ∧ (stepPowerupCollision cfg w g).food = g.food
    ∧ (stepPowerupCollision cfg w g).foods = g.foods
    ∧ (stepPowerupCollision cfg w g).snake.dir = g.snake.dir
    ∧ (stepPowerupCollision cfg w g).snake.body =
        (if poisonAt cfg w g = true ∧ 1 < g.snake.body.length
         then g.snake.body.dropLast else g.snake.body) := by
  unfold stepPowerupCollision
  cases hcp : cfg.powerups with
  | false => simp [poisonAt, hcp]
  | true =>
    cases hpu : g.powerup with
    | none => simp [poisonAt, hcp, hpu]
    | some pu =>
      by_cases hw : w = pu.position
      · cases hpt : pu.power_type with
        | Poison =>
          by_cases hlen : g.snake.body.length > 1
          · simp [hpt, poisonAt, hcp, hpu, hw, hlen, Option.any]
          · simp [hpt, poisonAt, hcp, hpu, hw, hlen, Option.any]
        | Slow => simp [hpt, poisonAt, hcp, hpu, hw, Option.any]
        | Fast => simp [hpt, poisonAt, hcp, hpu, hw, Option.any]
      · have hw' : pu.position ≠ w := fun hh => hw hh.symm
        simp [poisonAt, hcp, hpu, hw, hw', Option.any]

theorem shouldEnd_iff (cfg : Config) (g : GameState) :
    shouldEnd cfg g = true ↔
      out_of_bounds (stepNext g) g.grid = true ∧ wrapActive cfg g = false := by
  unfold shouldEnd wrapActive
  cases hcw : cfg.wrap_walls <;> cases hgw : g.wrap_walls <;> simp [hcw, hgw]

theorem step_running_inv (cfg : Config) (g : GameState) (rng : Rng) (fuel : Nat)
    (g' : GameState) (rng' : Rng)
    (hr : g.run_state = RunState.Running)
    (hnoskip : slowActive cfg g = true → (g.slow_skip_counter + 1) % 2 = 0)
    (hstep : step cfg g rng fuel = some (g', rng')) :
    ((shouldEnd cfg g = true ∨ stepWrapped cfg g ∈ g.snake.body)
      ∧ g'.run_state = RunState.Over
      ∧ g'.snake.body = g.snake.body ∧ g'.score = g.score
      ∧ g'.food = g.food ∧ g'.foods = g.foods ∧ g'.grid = g.grid ∧ rng' = rng)
    ∨ (shouldEnd cfg g = false ∧ stepWrapped cfg g ∉ g.snake.body
      ∧ g'.run_state = RunState.Running ∧ g'.grid = g.grid
      ∧ g'.snake.dir = g.snake.dir
      ∧ g'.snake.body =
          (if poisonAt cfg (stepWrapped cfg g) g = true
              ∧ 1 < (if ateAt cfg (stepWrapped cfg g) g = true
                     then stepWrapped cfg g :: g.snake.body
                     else (stepWrapped cfg g :: g.snake.body).dropLast).length
           then (if ateAt cfg (stepWrapped cfg g) g = true
                 then stepWrapped cfg g :: g.snake.body
                 else (stepWrapped cfg g :: g.snake.body).dropLast).dropLast
           else (if ateAt cfg (stepWrapped cfg g) g = true
                 then stepWrapped cfg g :: g.snake.body
                 else (stepWrapped cfg g :: g.snake.body).dropLast))) := by
  cases hsa : slowActive cfg g with
  | false =>
    rw [step_running_noslow cfg g rng fuel hr hsa] at hstep
    rcases stepMove_inv cfg g rng fuel g' rng' hstep with
      ⟨hover, hg', hrng'⟩ | ⟨hw, hc, g3, rng3, hfeed, hg', hrng'⟩
    · left
      subst hg'
      exact ⟨hover, rfl, rfl, rfl, rfl, rfl, rfl, hrng'⟩
    · right
      have hffacts := stepFeed_facts cfg (stepWrapped cfg g) _ rng fuel g3 rng3 hfeed
      have hpfacts := stepPU_facts cfg (stepWrapped cfg g) g3
      refine ⟨hw, hc, ?_, ?_, ?_, ?_⟩
      · rw [hg', hpfacts.1, hffacts.1]
        exact hr
      · rw [hg', hpfacts.2.1, hffacts.2.1]
      · rw [hg', hpfacts.2.2.2.2.2.1, hffacts.2.2.2.2.2.1]
      · rw [hg', hpfacts.2.2.2.2.2.2, hffacts.2.2.2.2.2.2]
        have hpois : poisonAt cfg (stepWrapped cfg g) g3 = poisonAt cfg (stepWrapped cfg g) g := by
          unfold poisonAt
          rw [hffacts.2.2.1]
        rw [hpois]
        rfl
  | true =>
    have he := hnoskip hsa
    rw [step_running_slow cfg g rng fuel hr hsa he] at hstep
    rcases stepMove_inv cfg { g with slow_skip_counter := g.slow_skip_counter + 1 }
        rng fuel g' rng' hstep with
      ⟨hover, hg', hrng'⟩ | ⟨hw, hc, g3, rng3, hfeed, hg', hrng'⟩
    · left
      subst hg'
      exact ⟨hover, rfl, rfl, rfl, rfl, rfl, rfl, hrng'⟩
    · right
      have hffacts := stepFeed_facts cfg
        (stepWrapped cfg { g with slow_skip_counter := g.slow_skip_counter + 1 })
        _ rng fuel g3 rng3 hfeed
      have hpfacts := stepPU_facts cfg
        (stepWrapped cfg { g with slow_skip_counter := g.slow_skip_counter + 1 }) g3
      refine ⟨hw, hc, ?_, ?_, ?_, ?_⟩
      · rw [hg', hpfacts.1, hffacts.1]
        exact hr
      · rw [hg', hpfacts.2.1, hffacts.2.1]
      · rw [hg', hpfacts.2.2.2.2.2.1, hffacts.2.2.2.2.2.1]
      · rw [hg', hpfacts.2.2.2.2.2.2, hffacts.2.2.2.2.2.2]
        have hpois : poisonAt cfg
            (stepWrapped cfg { g with slow_skip_counter := g.slow_skip_counter + 1 }) g3
            = poisonAt cfg (stepWrapped cfg g) g := by
          unfold poisonAt
          rw [hffacts.2.2.1]
          rfl
        rw [hpois]
        rfl

/-- C5. For every state whose run_state is Paused or Over, step returns
immediately without mutating the state or the RNG; and Over is terminal for the
Rule Engine: once a state is Over, any number of consecutive step calls leaves
every field of the GameState (and the RNG) unchanged. -/
theorem paused_over_noop_over_terminal (cfg : Config) (g : GameState) (rng : Rng)
    (fuel : Nat)
    (h : g.run_state = RunState.Paused ∨ g.run_state = RunState.Over) :
    step cfg g rng fuel = some (g, rng)
    ∧ (g.run_state = RunState.Over →
        ∀ n, stepIter cfg fuel n g rng = some (g, rng)) := by
  refine ⟨step_paused_or_over cfg g rng fuel h, ?_⟩
  intro hov n
  induction n with
  | zero => rfl
  | succ n ih =>
    unfold stepIter
    rw [step_paused_or_over cfg g rng fuel (Or.inr hov)]
    exact ih

/-- Witness for C5: a concrete paused state is returned unchanged, and the same
state moved to Over is untouched by three further steps. -/
theorem paused_over_noop_over_terminal_witness :
    step cfgPlain gPaused rngZero 3 = some (gPaused, rngZero)
    ∧ stepIter cfgPlain 3 3 { gPaused with run_state := RunState.Over } rngZero
        = some ({ gPaused with run_state := RunState.Over }, rngZero) :=
  ⟨(paused_over_noop_over_terminal cfgPlain gPaused rngZero 3 (Or.inl rfl)).1,
   (paused_over_noop_over_terminal cfgPlain { gPaused with run_state := RunState.Over }
      rngZero 3 (Or.inr rfl)).2 rfl 3⟩

/-- C3. For every Running state with no pending slow skip, step moves run_state
to Over exactly when the tentative next head is out of bounds while wrap
topology is not active, or the wrap-adjusted next head equals some current body
segment; and whenever step sets Over it returns immediately, leaving the snake
body, the score, the food and the foods (and the RNG) unchanged. -/
theorem over_iff_wall_or_selfhit (cfg : Config) (g : GameState) (rng : Rng) (fuel : Nat)
    (g' : GameState) (rng' : Rng)
    (hr : g.run_state = RunState.Running)
    (hnoskip : slowActive cfg g = true → (g.slow_skip_counter + 1) % 2 = 0)
    (hstep : step cfg g rng fuel = some (g', rng')) :
    (g'.run_state = RunState.Over ↔
      (out_of_bounds (stepNext g) g.grid = true ∧ wrapActive cfg g = false)
      ∨ stepWrapped cfg g ∈ g.snake.body)
    ∧ (g'.run_state = RunState.Over →
        g'.snake.body = g.snake.body ∧ g'.score = g.score
        ∧ g'.food = g.food ∧ g'.foods = g.foods ∧ rng' = rng) := by
  rcases step_running_inv cfg g rng fuel g' rng' hr hnoskip hstep with
    ⟨hover, hrs, hbody, hscore, hfood, hfoods, hgrid, hrng⟩ |
    ⟨hw, hc, hrs, hgrid, hdir, hbody⟩
  · constructor
    · rw [hrs]
      simp only [true_iff]
      rcases hover with hend | hcol
      · exact Or.inl ((shouldEnd_iff cfg g).mp hend)
      · exact Or.inr hcol
    · intro _
      exact ⟨hbody, hscore, hfood, hfoods, hrng⟩
  · constructor
    · rw [hrs]
      constructor
      · intro hcontra
        exact absurd hcontra (by simp)
      · intro hrhs
        rcases hrhs with ⟨hoob, hwa⟩ | hcol
        · have : shouldEnd cfg g = true := (shouldEnd_iff cfg g).mpr ⟨hoob, hwa⟩
          rw [this] at hw
          cases hw
        · exact absurd hcol hc
    · intro hcontra
      rw [hrs] at hcontra
      exact absurd hcontra (by simp)

/-- Witness for C3 at a concrete wall collision: the 3 by 3 no-wrap state at the
right edge steps to Over with body, score and food untouched. -/
theorem over_iff_wall_or_selfhit_witness :
    ({ gEdgeNoWrap with run_state := RunState.Over } : GameState).run_state = RunState.Over
    ∧ ({ gEdgeNoWrap with run_state := RunState.Over } : GameState).snake.body
        = gEdgeNoWrap.snake.body := by
  have h := over_iff_wall_or_selfhit cfgPlain gEdgeNoWrap rngZero 2
    { gEdgeNoWrap with run_state := RunState.Over } rngZero rfl
    (fun hsa => by cases hsa) rfl
  refine ⟨rfl, ?_⟩
  exact (h.2 rfl).1

theorem head?_cons_dropLast (w : Position) (t : List Position)
    (hlen : 1 < (w :: t).length) : ((w :: t).dropLast).head? = some w := by
  cases t with
  | nil => simp at hlen
  | cons a as => rfl

theorem formulaHead (w : Position) (B : List Position) (hB : B ≠ [])
    (ate poison : Bool) :
    ((if poison = true ∧ 1 < (if ate = true then w :: B else (w :: B).dropLast).length
      then (if ate = true then w :: B else (w :: B).dropLast).dropLast
      else (if ate = true then w :: B else (w :: B).dropLast)) : List Position).head?
      = some w := by
  have hb1 : ∃ t, (if ate = true then w :: B else (w :: B).dropLast) = w :: t := by
    cases ate with
    | true => exact ⟨B, by simp⟩
    | false =>
      cases B with
      | nil => exact absurd rfl hB
      | cons b bs => exact ⟨(b :: bs).dropLast, by simp⟩
  obtain ⟨t, ht⟩ := hb1
  rw [ht]
  split
  next hcond => exact head?_cons_dropLast w t hcond.2
  next => rfl

theorem formulaLength (w : Position) (B : List Position) (ate poison : Bool) :
    ((if poison = true ∧ 1 < (if ate = true then w :: B else (w :: B).dropLast).length
      then (if ate = true then w :: B else (w :: B).dropLast).dropLast
      else (if ate = true then w :: B else (w :: B).dropLast)) : List Position).length
    = (if poison = true ∧ 1 < (if ate = true then B.length + 1 else B.length)
       then (if ate = true then B.length + 1 else B.length) - 1
       else (if ate = true then B.length + 1 else B.length)) := by
  have hlen : (if ate = true then w :: B else (w :: B).dropLast).length
      = (if ate = true then B.length + 1 else B.length) := by
    cases ate <;> simp
  by_cases hc : poison = true
      ∧ 1 < (if ate = true then w :: B else (w :: B).dropLast).length
  · rw [if_pos hc, List.length_dropLast, hlen]
    rw [hlen] at hc
    rw [if_pos hc]
  · rw [if_neg hc, hlen]
    rw [hlen] at hc
    rw [if_neg hc]

theorem stepWrapped_inbounds (cfg : Config) (g : GameState)
    (h : out_of_bounds (stepNext g) g.grid = false) :
    stepWrapped cfg g = stepNext g := by
  unfold stepWrapped
  rw [h]
  simp

/-- C4. With wrap topology enabled and active, an out-of-bounds tentative head
is replaced by the Euclidean-remainder pair (x mod w, y mod h) — a non-negative
cell back on the grid, i.e. the opposite edge at the same orthogonal
coordinate — and the game does not end from leaving the grid (when the wrapped
cell is free of the body, the step completes with run_state Running and that
cell as the head); with wrap disabled, the identical scenario sets run_state to
Over. -/
theorem wrap_mod_or_wall_over (cfg : Config) (g : GameState) (rng : Rng) (fuel : Nat)
    (hr : g.run_state = RunState.Running)
    (hnoskip : slowActive cfg g = true → (g.slow_skip_counter + 1) % 2 = 0)
    (hbody : g.snake.body ≠ [])
    (hoob : out_of_bounds (stepNext g) g.grid = true)
    (hw : 0 < g.grid.w) (hh : 0 < g.grid.h) :
    (wrapActive cfg g = true →
      stepWrapped cfg g
          = ⟨(stepNext g).x.emod g.grid.w, (stepNext g).y.emod g.grid.h⟩
      ∧ (0 ≤ (stepWrapped cfg g).x ∧ (stepWrapped cfg g).x < g.grid.w
          ∧ 0 ≤ (stepWrapped cfg g).y ∧ (stepWrapped cfg g).y < g.grid.h)
      ∧ (stepWrapped cfg g ∉ g.snake.body →
          ∀ g' rng', step cfg g rng fuel = some (g', rng') →
            g'.run_state = RunState.Running
            ∧ g'.snake.body.head? = some (stepWrapped cfg g)))
    ∧ (wrapActive cfg g = false →
        ∀ g' rng', step cfg g rng fuel = some (g', rng') →
          g'.run_state = RunState.Over ∧ g'.snake.body = g.snake.body) := by
  constructor
  · intro hwa
    have hsw : stepWrapped cfg g = wrap_position (stepNext g) g.grid := by
      unfold stepWrapped
      rw [hwa, hoob]
      simp
    refine ⟨hsw, ?_, ?_⟩
    · rw [hsw]
      unfold wrap_position
      exact ⟨Int.emod_nonneg _ (ne_of_gt hw), Int.emod_lt_of_pos _ hw,
        Int.emod_nonneg _ (ne_of_gt hh), Int.emod_lt_of_pos _ hh⟩
    · intro hcol g' rng' hstep
      rcases step_running_inv cfg g rng fuel g' rng' hr hnoskip hstep with
        ⟨hover, -, -, -, -, -, -, -⟩ | ⟨-, -, hrs, -, -, hbody'⟩
      · rcases hover with hend | hcol2
        · have := (shouldEnd_iff cfg g).mp hend
          rw [hwa] at this
          cases this.2
        · exact absurd hcol2 hcol
      · refine ⟨hrs, ?_⟩
        rw [hbody']
        exact formulaHead (stepWrapped cfg g) g.snake.body hbody
          (ateAt cfg (stepWrapped cfg g) g) (poisonAt cfg (stepWrapped cfg g) g)
  · intro hwa g' rng' hstep
    rcases step_running_inv cfg g rng fuel g' rng' hr hnoskip hstep with
      ⟨-, hrs, hbody', -, -, -, -, -⟩ | ⟨hse, -, -, -, -, -⟩
    · exact ⟨hrs, hbody'⟩
    · have : shouldEnd cfg g = true := (shouldEnd_iff cfg g).mpr ⟨hoob, hwa⟩
      rw [this] at hse
      cases hse

/-- Witness for C4: on the 3 by 3 grid with head (2,1) facing Right, the wrapped
head is (0,1) and with the wrap flag on one step stays Running with head (0,1),
while the identical state with the flag off steps to Over. -/
theorem wrap_mod_or_wall_over_witness :
    stepWrapped cfgWrap gEdgeWrap = ⟨0, 1⟩
    ∧ gEdgeWrapAfter.run_state = RunState.Running
    ∧ gEdgeWrapAfter.snake.body.head? = some ⟨0, 1⟩
    ∧ ({ gEdgeNoWrap with run_state := RunState.Over } : GameState).run_state
        = RunState.Over := by
  have h1 := wrap_mod_or_wall_over cfgWrap gEdgeWrap rngZero 2 rfl
    (fun hsa => by cases hsa) (by decide) (by decide) (by decide) (by decide)
  have hA := h1.1 rfl
  have h2 := wrap_mod_or_wall_over cfgWrap gEdgeNoWrap rngZero 2 rfl
    (fun hsa => by cases hsa) (by decide) (by decide) (by decide) (by decide)
  have hB := (h2.2 rfl { gEdgeNoWrap with run_state := RunState.Over } rngZero rfl).1
  refine ⟨by rw [hA.1]; decide, ?_, ?_, hB⟩
  · exact ((hA.2.2 (by decide)) gEdgeWrapAfter rngZero rfl).1
  · have := ((hA.2.2 (by decide)) gEdgeWrapAfter rngZero rfl).2
    rw [this]
    rw [hA.1]
    decide

/-- C2 (amended). For every Running state with a non-empty body, no pending slow
skip (when a Slow power-up is active, the pre-step skip counter is odd), whose
move stays in bounds or wraps and does not self-collide, one step gives: the new
head is the wrap-adjusted old head plus the unit vector of the direction (equal
to old head plus unit vector whenever the move stays in bounds), run_state stays
Running, and the body length is unchanged unless food was eaten (then +1) or a
Poison power-up was collected (then -1, never below length 1). The original
claim, without the slow-skip proviso, is refuted by head_advance_counterexample. -/
theorem head_advance_amended (cfg : Config) (g : GameState) (rng : Rng) (fuel : Nat)
    (g' : GameState) (rng' : Rng)
    (hr : g.run_state = RunState.Running)
    (hbody : g.snake.body ≠ [])
    (hnoskip : slowActive cfg g = true → (g.slow_skip_counter + 1) % 2 = 0)
    (hin : out_of_bounds (stepNext g) g.grid = false ∨ wrapActive cfg g = true)
    (hc : stepWrapped cfg g ∉ g.snake.body)
    (hstep : step cfg g rng fuel = some (g', rng')) :
    g'.run_state = RunState.Running
    ∧ g'.snake.body.head? = some (stepWrapped cfg g)
    ∧ (out_of_bounds (stepNext g) g.grid = false →
        g'.snake.body.head? = some (next_head g.snake.body.headI g.snake.dir))
    ∧ g'.snake.body.length =
        (if poisonAt cfg (stepWrapped cfg g) g = true
            ∧ 1 < (if ateAt cfg (stepWrapped cfg g) g = true
                   then g.snake.body.length + 1 else g.snake.body.length)
         then (if ateAt cfg (stepWrapped cfg g) g = true
               then g.snake.body.length + 1 else g.snake.body.length) - 1
         else (if ateAt cfg (stepWrapped cfg g) g = true
               then g.snake.body.length + 1 else g.snake.body.length)) := by
  have hok : shouldEnd cfg g = false := by
    cases hse : shouldEnd cfg g with
    | false => rfl
    | true =>
      have hiff := (shouldEnd_iff cfg g).mp hse
      rcases hin with h1 | h1
      · rw [h1] at hiff
        cases hiff.1
      · rw [h1] at hiff
        cases hiff.2
  rcases step_running_inv cfg g rng fuel g' rng' hr hnoskip hstep with
    ⟨hover, -, -, -, -, -, -, -⟩ | ⟨-, -, hrs, -, -, hbody'⟩
  · rcases hover with hend | hcol2
    · rw [hok] at hend
      cases hend
    · exact absurd hcol2 hc
  · have hhead : g'.snake.body.head? = some (stepWrapped cfg g) := by
      rw [hbody']
      exact formulaHead (stepWrapped cfg g) g.snake.body hbody
        (ateAt cfg (stepWrapped cfg g) g) (poisonAt cfg (stepWrapped cfg g) g)
    refine ⟨hrs, hhead, ?_, ?_⟩
    · intro hinb
      rw [hhead, stepWrapped_inbounds cfg g hinb]
      rfl
    · rw [hbody']
      exact formulaLength (stepWrapped cfg g) g.snake.body
        (ateAt cfg (stepWrapped cfg g) g) (poisonAt cfg (stepWrapped cfg g) g)

/-- Counterexample to C2 as stated: gSlowSkip is Running, its move (5,5) to
(6,5) stays in bounds and does not self-collide, yet one step leaves the head at
(5,5) — the active Slow power-up with an even skip counter makes the step a
skip, so the new head does not equal old head plus the unit vector. -/
theorem head_advance_counterexample :
    gSlowSkip.run_state = RunState.Running
    ∧ out_of_bounds (stepNext gSlowSkip) gSlowSkip.grid = false
    ∧ stepWrapped cfgPow gSlowSkip ∉ gSlowSkip.snake.body
    ∧ step cfgPow gSlowSkip rngZero 2
        = some ({ gSlowSkip with slow_skip_counter := 1 }, rngZero)
    ∧ ({ gSlowSkip with slow_skip_counter := 1 } : GameState).snake.body.head?
        = some ⟨5, 5⟩
    ∧ stepNext gSlowSkip = ⟨6, 5⟩
    ∧ (⟨5, 5⟩ : Position) ≠ ⟨6, 5⟩ :=
  ⟨rfl, by decide, by decide, rfl, rfl, by decide, by decide⟩

/-- Witness for C2 (amended), instantiating the concrete scenario of the claim:
on the 10 by 10 grid with a single segment at (5,5) facing Right, one step makes
the head (6,5), keeps run_state Running and leaves the length at 1. -/
theorem head_advance_amended_witness :
    gCenterAfter.run_state = RunState.Running
    ∧ gCenterAfter.snake.body.head? = some ⟨6, 5⟩
    ∧ gCenterAfter.snake.body.length = 1 := by
  have h := head_advance_amended cfgPlain gCenter rngZero 2 gCenterAfter rngZero rfl
    (by decide) (fun hsa => by cases hsa) (Or.inl (by decide)) (by decide) rfl
  refine ⟨h.1, ?_, ?_⟩
  · rw [h.2.1]
    decide
  · rw [h.2.2.2]
    decide

theorem spawn_food_not_mem (grid : GridSize) (snake : Snake) :
    ∀ fuel rng p rng2, spawn_food grid snake fuel rng = some (p, rng2) →
      p ∉ snake.body := by
  intro fuel
  induction fuel with
  | zero => intro rng p rng2 h; cases h
  | succ fuel ih =>
    intro rng p rng2 h
    simp only [spawn_food] at h
    split at h
    next => exact ih _ _ _ h
    next hmem =>
      simp only [Option.some.injEq] at h
      have hp : (drawCell grid rng).1 = p := by rw [h]
      rw [← hp]
      exact hmem

theorem spawn_food_pos_facts (grid : GridSize) (snake : Snake) (foods : List Food) :
    ∀ fuel rng p rng2, spawn_food_pos grid snake foods fuel rng = some (p, rng2) →
      p ∉ snake.body ∧ ∀ f ∈ foods, f.position ≠ p := by
  intro fuel
  induction fuel with
  | zero => intro rng p rng2 h; cases h
  | succ fuel ih =>
    intro rng p rng2 h
    simp only [spawn_food_pos] at h
    split at h
    next => exact ih _ _ _ h
    next hmem =>
      simp only [Option.some.injEq] at h
      rw [not_or] at hmem
      have hp : (drawCell grid rng).1 = p := by rw [h]
      rw [← hp]
      refine ⟨hmem.1, ?_⟩
      intro f hf heq
      exact hmem.2 ⟨f, hf, heq⟩

theorem spawn_food_with_type_facts (grid : GridSize) (snake : Snake)
    (foods : List Food) (fuel : Nat) (rng : Rng) (fd : Food) (rng2 : Rng)
    (h : spawn_food_with_type grid snake foods fuel rng = some (fd, rng2)) :
    fd.position ∉ snake.body ∧ ∀ f ∈ foods, f.position ≠ fd.position := by
  simp only [spawn_food_with_type] at h
  split at h
  next => cases h
  next p rng1 heq =>
    simp only [Option.some.injEq, Prod.mk.injEq] at h
    have hfacts := spawn_food_pos_facts grid snake foods fuel _ p rng1 heq
    rw [← h.1]
    exact ⟨hfacts.1, fun f hf => hfacts.2 f hf⟩

theorem stepPU_body_subset (cfg : Config) (w : Position) (g : GameState) :
    ∀ x, x ∈ (stepPowerupCollision cfg w g).snake.body → x ∈ g.snake.body := by
  have hb := (stepPU_facts cfg w g).2.2.2.2.2.2
  intro x hx
  rw [hb] at hx
  split at hx
  next => exact (List.dropLast_sublist _).subset hx
  next => exact hx

theorem stepFeed_single_food (cfg : Config) (w : Position) (gp : GameState)
    (rng : Rng) (fuel : Nat) (g3 : GameState) (rng3 : Rng)
    (hm : cfg.multiple_foods = false)
    (hfeed : stepFeed cfg w gp rng fuel = some (g3, rng3)) :
    (w = gp.food
      ∧ (∃ rng1, spawn_food gp.grid gp.snake fuel rng = some (g3.food, rng1))
      ∧ g3.snake.body = gp.snake.body)
    ∨ (w ≠ gp.food ∧ g3.food = gp.food
      ∧ g3.snake.body = gp.snake.body.dropLast) := by
  unfold stepFeed at hfeed
  split at hfeed
  next hmt => rw [hm] at hmt; cases hmt
  split at hfeed
  next hfd =>
    split at hfeed
    next => cases hfeed
    next p rng1 heq =>
      simp only [Option.some.injEq, Prod.mk.injEq] at hfeed
      left
      refine ⟨hfd, ⟨rng1, ?_⟩, ?_⟩
      · rw [← hfeed.1]
        exact heq
      · rw [← hfeed.1]
  next hfd =>
    simp only [Option.some.injEq, Prod.mk.injEq] at hfeed
    right
    refine ⟨hfd, ?_, ?_⟩
    · rw [← hfeed.1]
    · rw [← hfeed.1]

theorem stepFeed_multi_foods (cfg : Config) (w : Position) (gp : GameState)
    (rng : Rng) (fuel : Nat) (g3 : GameState) (rng3 : Rng)
    (hm : cfg.multiple_foods = true)
    (hfeed : stepFeed cfg w gp rng fuel = some (g3, rng3)) :
    (∃ e rest, extractFood w gp.foods = some (e, rest)
      ∧ g3.snake.body = gp.snake.body
      ∧ ((rest.length < 5
          ∧ ∃ f rng1, spawn_food_with_type gp.grid gp.snake rest fuel rng
              = some (f, rng1) ∧ g3.foods = rest ++ [f])
        ∨ (¬ rest.length < 5 ∧ g3.foods = rest)))
    ∨ (extractFood w gp.foods = none ∧ g3.foods = gp.foods
      ∧ g3.snake.body = gp.snake.body.dropLast) := by
  unfold stepFeed at hfeed
  rw [if_pos hm] at hfeed
  cases hx : extractFood w gp.foods with
  | none =>
    rw [hx] at hfeed
    dsimp only at hfeed
    simp only [Option.some.injEq, Prod.mk.injEq] at hfeed
    right
    refine ⟨rfl, ?_, ?_⟩
    · rw [← hfeed.1]
    · rw [← hfeed.1]
  | some pr =>
    obtain ⟨e, rest⟩ := pr
    rw [hx] at hfeed
    dsimp only at hfeed
    left
    refine ⟨e, rest, rfl, ?_, ?_⟩
    · split at hfeed
      next hlen =>
        split at hfeed
        next => cases hfeed
        next f rng1 heq =>
          simp only [Option.some.injEq, Prod.mk.injEq] at hfeed
          rw [← hfeed.1]
      next hlen =>
        simp only [Option.some.injEq, Prod.mk.injEq] at hfeed
        rw [← hfeed.1]
    · split at hfeed
      next hlen =>
        split at hfeed
        next => cases hfeed
        next f rng1 heq =>
          simp only [Option.some.injEq, Prod.mk.injEq] at hfeed
          left
          refine ⟨hlen, f, rng1, heq, ?_⟩
          rw [← hfeed.1]
      next hlen =>
        simp only [Option.some.injEq, Prod.mk.injEq] at hfeed
        right
        refine ⟨hlen, ?_⟩
        rw [← hfeed.1]

theorem feed_then_pu_foodInv (cfg : Config) (w : Position) (gp : GameState)
    (rng : Rng) (fuel : Nat) (g3 : GameState) (rng3 : Rng) (B : List Position)
    (hbodyp : gp.snake.body = w :: B)
    (hsingle : cfg.multiple_foods = false → gp.food ∉ B)
    (hmulti : cfg.multiple_foods = true →
      (∀ f ∈ gp.foods, f.position ∉ B) ∧ (gp.foods.map Food.position).Nodup)
    (hfeed : stepFeed cfg w gp rng fuel = some (g3, rng3)) :
    foodInv cfg (stepPowerupCollision cfg w g3) := by
  have hbsub := stepPU_body_subset cfg w g3
  have hpu := stepPU_facts cfg w g3
  cases hm : cfg.multiple_foods with
  | false =>
    have hfood := hsingle hm
    simp only [foodInv, hm]
    rcases stepFeed_single_food cfg w gp rng fuel g3 rng3 hm hfeed with
      ⟨hfd, ⟨rng1, hsp⟩, hb3⟩ | ⟨hfd, hf3, hb3⟩
    · have hnot := spawn_food_not_mem gp.grid gp.snake fuel rng g3.food rng1 hsp
      rw [hpu.2.2.2.1]
      intro hmem
      have h1 : g3.food ∈ g3.snake.body := hbsub _ hmem
      rw [hb3] at h1
      exact hnot h1
    · rw [hpu.2.2.2.1, hf3]
      intro hmem
      have h1 : gp.food ∈ g3.snake.body := hbsub _ hmem
      rw [hb3, hbodyp] at h1
      have h2 : gp.food ∈ w :: B := (List.dropLast_sublist _).subset h1
      rcases List.mem_cons.mp h2 with heq | hB
      · exact hfd heq.symm
      · exact hfood hB
  | true =>
    obtain ⟨hall, hnd⟩ := hmulti hm
    simp only [foodInv, hm]
    rcases stepFeed_multi_foods cfg w gp rng fuel g3 rng3 hm hfeed with
      ⟨e, rest, hx, hb3, hcase⟩ | ⟨hx, hf3, hb3⟩
    · have hrs := extractFood_sublist w gp.foods e rest hx
      have hrne := extractFood_rest_ne w gp.foods e rest hnd hx
      have hrest_inv : ∀ f ∈ rest, f.position ∉ w :: B := by
        intro f hf hmem
        rcases List.mem_cons.mp hmem with heq | hB
        · exact hrne f hf heq
        · exact hall f (hrs.subset hf) hB
      have hrest_nd : (rest.map Food.position).Nodup := hnd.sublist (hrs.map Food.position)
      rcases hcase with ⟨hlen, f, rng1, hsp, hf3⟩ | ⟨hlen, hf3⟩
      · have hsf := spawn_food_with_type_facts gp.grid gp.snake rest fuel rng f rng1 hsp
        rw [hbodyp] at hsf
        rw [hpu.2.2.2.2.1, hf3]
        constructor
        · intro fx hfx hmem
          have h1 : fx.position ∈ g3.snake.body := hbsub _ hmem
          rw [hb3, hbodyp] at h1
          rcases List.mem_append.mp hfx with hfr | hfl
          · exact hrest_inv fx hfr h1
          · have hfxf : fx = f := by simpa using hfl
            rw [hfxf] at h1
            exact hsf.1 h1
        · rw [List.map_append]
          rw [List.nodup_append]
          refine ⟨hrest_nd, by simp, ?_⟩
          intro x hx1 hx2
          simp only [List.map_cons, List.map_nil, List.mem_singleton] at hx2
          obtain ⟨fx, hfx, hfxp⟩ := List.mem_map.mp hx1
          exact hsf.2 fx hfx (by rw [hfxp, hx2])
      · rw [hpu.2.2.2.2.1, hf3]
        constructor
        · intro fx hfx hmem
          have h1 : fx.position ∈ g3.snake.body := hbsub _ hmem
          rw [hb3, hbodyp] at h1
          exact hrest_inv fx hfx h1
        · exact hrest_nd
    · have hne := extractFood_none w gp.foods hx
      rw [hpu.2.2.2.2.1, hf3]
      constructor
      · intro fx hfx hmem
        have h1 : fx.position ∈ g3.snake.body := hbsub _ hmem
        rw [hb3, hbodyp] at h1
        have h2 : fx.position ∈ w :: B := (List.dropLast_sublist _).subset h1
        rcases List.mem_cons.mp h2 with heq | hB
        · exact hne fx hfx heq
        · exact hall fx hfx hB
      · exact hnd

theorem stepMove_foodInv (cfg : Config) (gm : GameState) (rng : Rng) (fuel : Nat)
    (g' : GameState) (rng' : Rng)
    (hinv : foodInv cfg gm)
    (hmove : stepMove cfg gm rng fuel = some (g', rng'))
    (hnotover : g'.run_state ≠ RunState.Over) :
    foodInv cfg g' := by
  rcases stepMove_inv cfg gm rng fuel g' rng' hmove with
    ⟨-, hg', -⟩ | ⟨-, -, g3, rng3, hfeed, hg', -⟩
  · rw [hg'] at hnotover
    exact absurd rfl hnotover
  · rw [hg']
    refine feed_then_pu_foodInv cfg (stepWrapped cfg gm) _ rng fuel g3 rng3
      gm.snake.body rfl ?_ ?_ hfeed
    · intro hm
      simp only [foodInv, hm] at hinv
      exact hinv
    · intro hm
      simp only [foodInv, hm] at hinv
      exact hinv

/-- C6. The food invariant is preserved by step: from any state where no food
occupies a snake-body cell (and, in multi-food mode, the food positions are
pairwise distinct), every non-terminal step reaches a state with the same
property. -/
theorem food_invariant_preserved (cfg : Config) (g : GameState) (rng : Rng)
    (fuel : Nat) (g' : GameState) (rng' : Rng)
    (hinv : foodInv cfg g)
    (hstep : step cfg g rng fuel = some (g', rng'))
    (hnotover : g'.run_state ≠ RunState.Over) :
    foodInv cfg g' := by
  cases hrs : g.run_state with
  | Paused =>
    rw [step_paused_or_over cfg g rng fuel (Or.inl hrs)] at hstep
    simp only [Option.some.injEq, Prod.mk.injEq] at hstep
    rw [← hstep.1]
    exact hinv
  | Over =>
    rw [step_paused_or_over cfg g rng fuel (Or.inr hrs)] at hstep
    simp only [Option.some.injEq, Prod.mk.injEq] at hstep
    rw [← hstep.1]
    exact hinv
  | Running =>
    cases hsa : slowActive cfg g with
    | false =>
      rw [step_running_noslow cfg g rng fuel hrs hsa] at hstep
      exact stepMove_foodInv cfg g rng fuel g' rng' hinv hstep hnotover
    | true =>
      by_cases hskip : (g.slow_skip_counter + 1) % 2 = 1
      · have hsome : step cfg g rng fuel
            = some ({ g with slow_skip_counter := g.slow_skip_counter + 1 }, rng) := by
          unfold step
          rw [if_neg (by simp [hrs]), if_pos hsa, if_pos hskip]
        rw [hsome] at hstep
        simp only [Option.some.injEq, Prod.mk.injEq] at hstep
        rw [← hstep.1]
        exact hinv
      · have he : (g.slow_skip_counter + 1) % 2 = 0 := by omega
        rw [step_running_slow cfg g rng fuel hrs hsa he] at hstep
        exact stepMove_foodInv cfg { g with slow_skip_counter := g.slow_skip_counter + 1 }
          rng fuel g' rng' hinv hstep hnotover

/-- Witness for C6: the concrete 10 by 10 scenario satisfies the food invariant,
steps to gCenterAfter, and the invariant still holds there. -/
theorem food_invariant_preserved_witness : foodInv cfgPlain gCenterAfter :=
  food_invariant_preserved cfgPlain gCenter rngZero 2 gCenterAfter rngZero
    (by show gCenter.food ∉ gCenter.snake.body; decide) rfl (by decide)

theorem spawn_powerup_loop_all_blocked (cfg : Config) (grid : GridSize)
    (snake : Snake) (ex : Option PowerUp) (food : Position) (foods : List Food)
    (pt : PowerUpType) :
    ∀ n rng, (∀ k < n, cellBlocked cfg snake ex food foods (candAt grid rng k)) →
      spawn_powerup_loop cfg grid snake ex food foods pt n rng
        = (none, rngSkip (2 * n) rng) := by
  intro n
  induction n with
  | zero => intro rng h; rfl
  | succ n ih =>
    intro rng h
    have h0 := h 0 (Nat.succ_pos n)
    have hres : spawn_powerup_loop cfg grid snake ex food foods pt (n + 1) rng
        = spawn_powerup_loop cfg grid snake ex food foods pt n (drawCell grid rng).2 := by
      simp only [spawn_powerup_loop]
      by_cases c1 : (drawCell grid rng).1 ∈ snake.body
      · rw [if_pos c1]
      · rw [if_neg c1]
        by_cases c2 : cfg.multiple_foods = true
            ∧ ∃ f ∈ foods, f.position = (drawCell grid rng).1
        · rw [if_pos c2]
        · rw [if_neg c2]
          by_cases c3 : cfg.multiple_foods = false ∧ (drawCell grid rng).1 = food
          · rw [if_pos c3]
          · rw [if_neg c3]
            by_cases c4 : ∃ epu, ex = some epu ∧ epu.position = (drawCell grid rng).1
            · rw [if_pos c4]
            · exfalso
              rcases h0 with hb | hb | hb | hb
              exacts [c1 hb, c2 hb, c3 hb, c4 hb]
    rw [hres]
    have hidx : ∀ k, rngSkip (2 * k) (drawCell grid rng).2
        = rngSkip (2 * (k + 1)) rng := by
      intro k
      simp only [rngSkip, drawCell, Rng.next_u32]
      congr 1
      omega
    have hshift : ∀ k < n,
        cellBlocked cfg snake ex food foods (candAt grid (drawCell grid rng).2 k) := by
      intro k hk
      have hh := h (k + 1) (Nat.succ_lt_succ hk)
      unfold candAt
      rw [hidx k]
      exact hh
    rw [ih (drawCell grid rng).2 hshift, hidx n]

theorem spawn_powerup_loop_placement (cfg : Config) (grid : GridSize)
    (snake : Snake) (ex : Option PowerUp) (food : Position) (foods : List Food)
    (pt : PowerUpType) :
    ∀ n rng pu rng2,
      spawn_powerup_loop cfg grid snake ex food foods pt n rng = (some pu, rng2) →
      pu.power_type = pt
      ∧ pu.position ∉ snake.body
      ∧ (cfg.multiple_foods = true → ∀ f ∈ foods, f.position ≠ pu.position)
      ∧ (cfg.multiple_foods = false → pu.position ≠ food)
      ∧ (∀ epu, ex = some epu → epu.position ≠ pu.position) := by
  intro n
  induction n with
  | zero =>
    intro rng pu rng2 h
    simp only [spawn_powerup_loop, Prod.mk.injEq] at h
    exact Option.noConfusion h.1
  | succ n ih =>
    intro rng pu rng2 h
    simp only [spawn_powerup_loop] at h
    split at h
    next => exact ih _ _ _ h
    next c1 =>
      split at h
      next => exact ih _ _ _ h
      next c2 =>
        split at h
        next => exact ih _ _ _ h
        next c3 =>
          split at h
          next => exact ih _ _ _ h
          next c4 =>
            simp only [Prod.mk.injEq, Option.some.injEq] at h
            rw [← h.1]
            refine ⟨rfl, c1, ?_, ?_, ?_⟩
            · intro hm f hf heq
              exact c2 ⟨hm, f, hf, heq⟩
            · intro hm heq
              exact c3 ⟨hm, heq⟩
            · intro epu hepu heq
              exact c4 ⟨epu, hepu, heq⟩

/-- C9 (amended). A power-up spawn attempt spawns nothing when a power-up
already exists on the grid; aborts early when the initial roll (RNG draw mod
100) is at least 10, so a spawn proceeds only on a roll below 10; its placement
loop draws at most 101 candidate cells — the source gives up only once its
attempt counter exceeds 100, i.e. after a 101st candidate — and silently
returns no power-up (no error) when all 101 are blocked; and a placed power-up
coincides with no snake segment, no food, and no existing power-up. -/
theorem powerup_spawn_amended :
    (∀ cfg grid snake ex food foods rng, ex.isSome = true →
      spawn_powerup cfg grid snake ex food foods rng = (none, rng))
    ∧ (∀ cfg grid snake food foods rng, (rng.next_u32).1 % 100 ≥ 10 →
      spawn_powerup cfg grid snake none food foods rng = (none, (rng.next_u32).2))
    ∧ (∀ cfg grid snake food foods rng, (rng.next_u32).1 % 100 < 10 →
      spawn_powerup cfg grid snake none food foods rng
        = spawn_powerup_loop cfg grid snake none food foods
            (determine_powerup_type (rng.next_u32).2).1 101
            (determine_powerup_type (rng.next_u32).2).2)
    ∧ (∀ cfg grid snake ex food foods pt rng,
        (∀ k < 101, cellBlocked cfg snake ex food foods (candAt grid rng k)) →
        spawn_powerup_loop cfg grid snake ex food foods pt 101 rng
          = (none, rngSkip 202 rng))
    ∧ (∀ cfg grid snake ex food foods pt n rng pu rng2,
        spawn_powerup_loop cfg grid snake ex food foods pt n rng = (some pu, rng2) →
        pu.position ∉ snake.body
        ∧ (cfg.multiple_foods = true → ∀ f ∈ foods, f.position ≠ pu.position)
        ∧ (cfg.multiple_foods = false → pu.position ≠ food)
        ∧ (∀ epu, ex = some epu → epu.position ≠ pu.position)) := by
  refine ⟨?_, ?_, ?_, ?_, ?_⟩
  · intro cfg grid snake ex food foods rng h
    unfold spawn_powerup
    rw [if_pos h]
  · intro cfg grid snake food foods rng h
    unfold spawn_powerup
    simp only [Option.isSome_none, Bool.false_eq_true, if_false]
    rw [if_pos h]
  · intro cfg grid snake food foods rng h
    unfold spawn_powerup
    simp only [Option.isSome_none, Bool.false_eq_true, if_false]
    rw [if_neg (by omega)]
  · intro cfg grid snake ex food foods pt rng h
    exact spawn_powerup_loop_all_blocked cfg grid snake ex food foods pt 101 rng h
  · intro cfg grid snake ex food foods pt n rng pu rng2 h
    have hf := spawn_powerup_loop_placement cfg grid snake ex food foods pt n rng pu rng2 h
    exact ⟨hf.2.1, hf.2.2.1, hf.2.2.2.1, hf.2.2.2.2⟩

/-- Counterexample to the cap clause of C9 as frozen: with this stream the roll
is 5 (spawn proceeds) and the first 100 candidate cells all land on the snake,
yet spawn_powerup still places a power-up — the source draws a 101st candidate
before giving up, so the placement loop is not capped at 100 candidate
attempts. -/
theorem powerup_spawn_cap_counterexample :
    (∀ k < 100, candAt c9grid (rngSkip 2 c9rng) k ∈ c9snake.body)
    ∧ (spawn_powerup cfgPow c9grid c9snake none ⟨1, 1⟩ [] c9rng).1
        = some ⟨⟨0, 1⟩, PowerUpType.Fast, 15⟩ := by
  constructor
  · decide
  · decide

/-- Witness for C9 (amended) at concrete inputs: an existing power-up blocks the
spawn, a roll of 10 aborts it, and a loop whose 101 candidates are all on the
snake gives up silently. -/
theorem powerup_spawn_amended_witness :
    spawn_powerup cfgPow c9grid c9snake (some ⟨⟨1, 0⟩, PowerUpType.Slow, 20⟩)
        ⟨1, 1⟩ [] rngZero = (none, rngZero)
    ∧ spawn_powerup cfgPow c9grid c9snake none ⟨1, 1⟩ [] rngTen
        = (none, (rngTen.next_u32).2)
    ∧ spawn_powerup_loop cfgPow c9grid c9snake none ⟨1, 1⟩ [] PowerUpType.Fast
        101 rngZero = (none, rngSkip 202 rngZero) := by
  refine ⟨?_, ?_, ?_⟩
  · exact powerup_spawn_amended.1 cfgPow c9grid c9snake _ ⟨1, 1⟩ [] rngZero rfl
  · exact powerup_spawn_amended.2.1 cfgPow c9grid c9snake ⟨1, 1⟩ [] rngTen (by decide)
  · exact powerup_spawn_amended.2.2.2.1 cfgPow c9grid c9snake none ⟨1, 1⟩ []
      PowerUpType.Fast rngZero
      (fun k hk => Or.inl (List.mem_cons_self _ _))

theorem update_powerup_effects_decrement (g : GameState) (pt : PowerUpType) (d : Nat)
    (h : g.active_powerup = some (pt, d)) :
    (update_powerup_effects g).active_powerup
        = (if d ≤ 1 then none else some (pt, d - 1))
    ∧ (d ≤ 1 → (update_powerup_effects g).slow_skip_counter = 0)
    ∧ (¬ d ≤ 1 → (update_powerup_effects g).slow_skip_counter = g.slow_skip_counter) := by
  unfold update_powerup_effects
  rw [h]
  dsimp only
  by_cases h1 : d ≤ 1
  · have hd2 : (if d > 0 then d - 1 else d) = 0 := by split <;> omega
    rw [hd2]
    simp [h1]
  · have h0 : d > 0 := by omega
    rw [if_pos h0]
    have hne : ¬ (d - 1 = 0) := by omega
    rw [if_neg hne, if_neg h1]
    exact ⟨rfl, fun hd => absurd hd h1, fun _ => rfl⟩

/-- C7. One Loop update, in order: latches the snake direction from the Input
collaborator; decrements the active power-up's remaining duration by exactly 1,
once per update regardless of how many rule-engine steps follow (floor at 0; on
reaching 0 the active power-up is cleared and the slow-skip counter reset to
0); attempts one power-up spawn; then invokes the Rule Engine step exactly
twice when a Fast power-up is active and exactly once otherwise; and finally
advances the Time collaborator by one tick. -/
theorem loop_update_order (cfg : Config) (dir : Direction) (g : GameState)
    (rng : Rng) (time : Nat) (fuel : Nat) (hp : cfg.powerups = true) :
    (update cfg dir g rng time fuel =
      (let gb := update_powerup_effects { g with snake := { g.snake with dir := dir } };
       let gc := try_spawn_powerup cfg gb rng;
       let stepped :=
         if fastActive gc.1 then
           match step cfg gc.1 gc.2 fuel with
           | none => none
           | some (gd, rng2) => step cfg gd rng2 fuel
         else step cfg gc.1 gc.2 fuel;
       match stepped with
       | none => none
       | some (ge, rng3) => some (ge, rng3, time + 1)))
    ∧ (∀ pt d, g.active_powerup = some (pt, d) →
        (update_powerup_effects g).active_powerup
            = (if d ≤ 1 then none else some (pt, d - 1))
        ∧ (d ≤ 1 → (update_powerup_effects g).slow_skip_counter = 0))
    ∧ (g.active_powerup = none → update_powerup_effects g = g) := by
  refine ⟨?_, ?_, ?_⟩
  · simp only [update, hp, if_true, Bool.true_and]
  · intro pt d h
    have hd := update_powerup_effects_decrement g pt d h
    exact ⟨hd.1, hd.2.1⟩
  · intro h
    unfold update_powerup_effects
    rw [h]

/-- Witness for C7: a state holding an active Slow power-up with one tick left
has it decremented to 0, cleared, and the skip counter reset. -/
theorem loop_update_order_witness :
    (update_powerup_effects gSlowExpiring).active_powerup = none
    ∧ (update_powerup_effects gSlowExpiring).slow_skip_counter = 0 := by
  have h := (loop_update_order cfgPow Direction.Right gSlowExpiring rngZero 0 2 rfl).2.1
    PowerUpType.Slow 1 rfl
  refine ⟨?_, h.2 (by decide)⟩
  rw [h.1]
  decide

theorem spawn_initial_foods_go_facts (grid : GridSize) (snake : Snake) (fuel : Nat) :
    ∀ n acc rng out rng2,
      spawn_initial_foods_go grid snake fuel n acc rng = some (out, rng2) →
      out.length = acc.length + n
      ∧ ((∀ f ∈ acc, f.position ∉ snake.body) → (acc.map Food.position).Nodup →
          (∀ f ∈ out, f.position ∉ snake.body) ∧ (out.map Food.position).Nodup) := by
  intro n
  induction n with
  | zero =>
    intro acc rng out rng2 h
    simp only [spawn_initial_foods_go, Option.some.injEq, Prod.mk.injEq] at h
    rw [← h.1]
    exact ⟨rfl, fun ha hn => ⟨ha, hn⟩⟩
  | succ n ih =>
    intro acc rng out rng2 h
    simp only [spawn_initial_foods_go] at h
    split at h
    next => exact Option.noConfusion h
    next f rng1 heq =>
      have hf := spawn_food_with_type_facts grid snake acc fuel rng f rng1 heq
      have hrest := ih (acc ++ [f]) rng1 out rng2 h
      refine ⟨?_, ?_⟩
      · rw [hrest.1]
        simp only [List.length_append, List.length_cons, List.length_nil]
        omega
      · intro hainv hand
        apply hrest.2
        · intro fx hfx
          rcases List.mem_append.mp hfx with h1 | h2
          · exact hainv fx h1
          · have hfx2 : fx = f := by simpa using h2
            rw [hfx2]
            exact hf.1
        · rw [List.map_append, List.nodup_append]
          refine ⟨hand, by simp, ?_⟩
          intro x hx1 hx2
          obtain ⟨fx, hfx, hfxp⟩ := List.mem_map.mp hx1
          simp only [List.map_cons, List.map_nil, List.mem_singleton] at hx2
          exact hf.2 fx hfx (by rw [hfxp, hx2])

theorem spawn_initial_foods_facts (grid : GridSize) (snake : Snake) (fuel : Nat)
    (rng : Rng) (out : List Food) (rng2 : Rng)
    (h : spawn_initial_foods grid snake fuel rng = some (out, rng2)) :
    out.length = 3 + (rng.next_u32).1 % 3
    ∧ (∀ f ∈ out, f.position ∉ snake.body) ∧ (out.map Food.position).Nodup := by
  unfold spawn_initial_foods at h
  dsimp only at h
  have hg := spawn_initial_foods_go_facts grid snake fuel
    (3 + (rng.next_u32).1 % 3) [] (rng.next_u32).2 out rng2 h
  refine ⟨?_, ?_⟩
  · rw [hg.1]
    simp
  · exact hg.2 (fun f hf => absurd hf (List.not_mem_nil f)) (by simp)

/-- C8. After reset (first part) or new_with_wrap, hence new (second part), on
any grid: the snake is the single segment (w/2, h/2) facing Right, score 0,
run_state Running; the food never coincides with the snake in single-food mode,
and in multi-food mode the initial food count is 3 plus the first RNG draw mod
3 — hence in the range 3 to 5 — with pairwise-distinct positions all off the
snake; reset keeps the grid and the wrap-topology flag and clears the power-up
state when the powerups feature is on, and new clears the power-up state
outright. -/
theorem reset_new_establish :
    (∀ cfg g rng fuel g' rng',
      GameState.reset cfg g rng fuel = some (g', rng') →
      g'.grid = g.grid
      ∧ g'.snake.body = [⟨g.grid.w / 2, g.grid.h / 2⟩]
      ∧ g'.snake.dir = Direction.Right
      ∧ g'.score = 0
      ∧ g'.run_state = RunState.Running
      ∧ g'.wrap_walls = g.wrap_walls
      ∧ (cfg.powerups = true → g'.powerup = none ∧ g'.active_powerup = none
          ∧ g'.slow_skip_counter = 0)
      ∧ (cfg.multiple_foods = false → g'.food ∉ g'.snake.body)
      ∧ (cfg.multiple_foods = true →
          g'.foods.length = 3 + (rng.next_u32).1 % 3
          ∧ 3 ≤ g'.foods.length ∧ g'.foods.length ≤ 5
          ∧ (∀ f ∈ g'.foods, f.position ∉ g'.snake.body)
          ∧ (g'.foods.map Food.position).Nodup))
    ∧ (∀ cfg grid rng wrap fuel g' rng',
      GameState.new_with_wrap cfg grid rng wrap fuel = some (g', rng') →
      g'.grid = grid
      ∧ g'.snake.body = [⟨grid.w / 2, grid.h / 2⟩]
      ∧ g'.snake.dir = Direction.Right
      ∧ g'.score = 0
      ∧ g'.run_state = RunState.Running
      ∧ (g'.powerup = none ∧ g'.active_powerup = none ∧ g'.slow_skip_counter = 0)
      ∧ (cfg.multiple_foods = false → g'.food ∉ g'.snake.body)
      ∧ (cfg.multiple_foods = true →
          g'.foods.length = 3 + (rng.next_u32).1 % 3
          ∧ 3 ≤ g'.foods.length ∧ g'.foods.length ≤ 5
          ∧ (∀ f ∈ g'.foods, f.position ∉ g'.snake.body)
          ∧ (g'.foods.map Food.position).Nodup)) := by
  constructor
  · intro cfg g rng fuel g' rng' h
    unfold GameState.reset at h
    dsimp only at h
    split at h
    next hm =>
      split at h
      next => exact Option.noConfusion h
      next foods rng1 heq =>
        simp only [Option.some.injEq, Prod.mk.injEq] at h
        have hf := spawn_initial_foods_facts g.grid _ fuel rng foods rng1 heq
        rw [← h.1]
        refine ⟨rfl, rfl, rfl, rfl, rfl, rfl, ?_, ?_, ?_⟩
        · intro hp
          simp [hp]
        · intro hmf
          rw [hm] at hmf
          cases hmf
        · intro _
          refine ⟨hf.1, ?_, ?_, hf.2.1, hf.2.2⟩
          · rw [hf.1]
            omega
          · rw [hf.1]
            have hlt : (rng.next_u32).1 % 3 < 3 := Nat.mod_lt _ (by norm_num)
            omega
    next hm =>
      have hm' : cfg.multiple_foods = false := by
        cases hx : cfg.multiple_foods
        · rfl
        · exact absurd hx hm
      split at h
      next => exact Option.noConfusion h
      next p rng1 heq =>
        simp only [Option.some.injEq, Prod.mk.injEq] at h
        have ho := spawn_food_not_mem g.grid _ fuel rng p rng1 heq
        rw [← h.1]
        refine ⟨rfl, rfl, rfl, rfl, rfl, rfl, ?_, ?_, ?_⟩
        · intro hp
          simp [hp]
        · intro _
          exact ho
        · intro hmf
          rw [hm'] at hmf
          cases hmf
  · intro cfg grid rng wrap fuel g' rng' h
    unfold GameState.new_with_wrap at h
    dsimp only at h
    split at h
    next hm =>
      split at h
      next => exact Option.noConfusion h
      next foods rng1 heq =>
        simp only [Option.some.injEq, Prod.mk.injEq] at h
        have hf := spawn_initial_foods_facts grid _ fuel rng foods rng1 heq
        rw [← h.1]
        refine ⟨rfl, rfl, rfl, rfl, rfl, ⟨rfl, rfl, rfl⟩, ?_, ?_⟩
        · intro hmf
          rw [hm] at hmf
          cases hmf
        · intro _
          refine ⟨hf.1, ?_, ?_, hf.2.1, hf.2.2⟩
          · rw [hf.1]
            omega
          · rw [hf.1]
            have hlt : (rng.next_u32).1 % 3 < 3 := Nat.mod_lt _ (by norm_num)
            omega
    next hm =>
      have hm' : cfg.multiple_foods = false := by
        cases hx : cfg.multiple_foods
        · rfl
        · exact absurd hx hm
      split at h
      next => exact Option.noConfusion h
      next p rng1 heq =>
        simp only [Option.some.injEq, Prod.mk.injEq] at h
        have ho := spawn_food_not_mem grid _ fuel rng p rng1 heq
        rw [← h.1]
        refine ⟨rfl, rfl, rfl, rfl, rfl, ⟨rfl, rfl, rfl⟩, ?_, ?_⟩
        · intro _
          exact ho
        · intro hmf
          rw [hm'] at hmf
          cases hmf

/-- Witness for C8: resetting the 10 by 10 centre state with the
identity-stream RNG in multi-food mode yields exactly 3 foods (first draw 0),
score 0 and run_state Running. -/
theorem reset_new_establish_witness :
    c8after.foods.length = 3
    ∧ c8after.score = 0
    ∧ c8after.run_state = RunState.Running := by
  have h := reset_new_establish.1 cfgMulti gCenter rngId 20 c8after ⟨rngId.stream, 10⟩ rfl
  have hm := h.2.2.2.2.2.2.2.2 rfl
  refine ⟨?_, h.2.2.2.1, h.2.2.2.2.1⟩
  rw [hm.1]
  decide

/-- C10. For the Seeded RNG constructed with seed 0, the 64-bit state remains 0
after every number of calls and every output is 0: the output sequence of seed 0
is constantly zero. -/
theorem seed_zero_all_outputs_zero :
    ∀ n : Nat, seededStateIter (Seeded.new 0) n = 0
      ∧ seededOutputs 0 n = List.replicate n 0 := by
  intro n
  induction n with
  | zero => exact ⟨rfl, rfl⟩
  | succ n ih =>
    refine ⟨?_, ?_⟩
    · show (Seeded.next_u32 (seededStateIter (Seeded.new 0) n)).2 = 0
      rw [ih.1]
      rfl
    · have hstep : seededOutputs 0 (n + 1) = 0 :: seededOutputs 0 n := rfl
      rw [hstep, ih.2, List.replicate_succ]

end SnakeSpec
